import Mathlib

attribute [local semireducible] Rat.add Rat.mul Rat.sub Rat.inv Rat.ofScientific

/-!
Shallow embedding of the model-routing / fallback / cache core of the
sophia-intel repository, covering `src/services/portkey_client.py`,
`src/services/advanced_portkey_client.py` and
`src/mcp/embedding/embedding_mcp_server.py`.

Modelling conventions:
* Python floats are modelled as rationals (`ℚ`); all the routing
  constants (costs, tier scores, weights) are exact decimal fractions.
* Python dicts are modelled as insertion-ordered association lists;
  `lookupA` / `updateA` / `removeA` mirror indexing, assignment and `del`.
* `list.sort(key=..., reverse=...)` (Timsort, stable) is modelled by the
  stable insertion sort `isortB`.
* A Python exception escaping a function is modelled as an
  `Option`/`Except` failure value.
* sha256/md5 cache digests are modelled by their (injectively encoded)
  preimages, or by an abstract digest function passed as a parameter;
  hash collisions are not modelled.
* Wall-clock readings (`time.time()`, `datetime.now()`) are passed in as
  rational parameters.
* The HTTP transport of a single model attempt is abstracted as an
  oracle `String → ExecOutcome` giving, per model, either a successful
  response (content and latency) or a raised error.
-/

/-- `ModelTier` enum of both portkey clients. -/
inductive ModelTier
  | flash
  | balanced
  | power
  | specialist
deriving DecidableEq, Repr

/-- `TaskType` enum of both portkey clients. -/
inductive TaskType
  | code
  | math
  | creative
  | analysis
  | general
  | review
deriving DecidableEq, Repr

/-- `ModelConfig` dataclass of both portkey clients. -/
structure ModelConfig where
  name : String
  tier : ModelTier
  cost_per_1m_tokens : ℚ
  max_tokens : ℕ
  strengths : List TaskType
  provider : String
deriving DecidableEq, Repr

/-- First-match association-list lookup, modelling Python dict indexing
(`d[k]` / `d.get(k)` / `k in d`). -/
def lookupA {κ β : Type} [DecidableEq κ] : List (κ × β) → κ → Option β
  | [], _ => none
  | (k, v) :: rest, key => if k = key then some v else lookupA rest key

/-- Python dict assignment `d[k] = v`: replace the value at an existing key
in place (keeping insertion order), append a new binding otherwise. -/
def updateA {κ β : Type} [DecidableEq κ] (l : List (κ × β)) (key : κ) (v : β) :
    List (κ × β) :=
  if (lookupA l key).isSome then
    l.map (fun p => if p.1 = key then (key, v) else p)
  else
    l ++ [(key, v)]

/-- Python dict deletion `del d[k]`. -/
def removeA {κ β : Type} [DecidableEq κ] (l : List (κ × β)) (key : κ) :
    List (κ × β) :=
  l.filter (fun p => decide (p.1 ≠ key))

/-- Stable insertion step: the element `x` being inserted is placed after
every element the comparator ranks strictly before it (`better y x = true`
keeps `y` in front).  Elements of the original list are inserted
right-to-left by `isortB`, so an element equal under the key to an
already-placed one ends up before it exactly when it occurred earlier in
the original list, reproducing the stability of Python `list.sort`. -/
def insB {α : Type} (better : α → α → Bool) (x : α) : List α → List α
  | [] => [x]
  | y :: ys => if better y x then y :: insB better x ys else x :: y :: ys

/-- Stable sort modelling Python `list.sort` with a key function. -/
def isortB {α : Type} (better : α → α → Bool) : List α → List α
  | [] => []
  | x :: xs => insB better x (isortB better xs)

/-- Comparator of a Python `sort(key=f, reverse=True)` call: `a` comes
strictly before `b` iff its key is strictly larger. -/
def maxBetter {α : Type} (f : α → ℚ) (a b : α) : Bool := decide (f b < f a)

/-- Comparator of an ascending Python `sort(key=f)` call: `a` comes
strictly before `b` iff its key is strictly smaller. -/
def minBetter {α : Type} (f : α → ℚ) (a b : α) : Bool := decide (f a < f b)

/-- One selection step: the earlier element `x` keeps its place unless the
best element `y` found later strictly beats it. -/
def pickB {α : Type} (better : α → α → Bool) (x : α) : Option α → α
  | none => x
  | some y => if better y x then y else x

/-- The element that the stable sort `isortB better` places first: the
first element of the list that no later element strictly beats. -/
def firstBest {α : Type} (better : α → α → Bool) : List α → Option α
  | [] => none
  | x :: xs => some (pickB better x (firstBest better xs))

/-- Index of the first occurrence of `a` in a list (0-based); used to state
tie-breaking by iteration order. -/
def firstIdx {α : Type} [DecidableEq α] (a : α) : List α → ℕ
  | [] => 0
  | x :: xs => if x = a then 0 else firstIdx a xs + 1

/-- The `self.models` map of `src/services/portkey_client.py`
(`AdvancedPortkeyClient.__init__`), in insertion order. -/
def portkeyModels : List (String × ModelConfig) :=
  [ ("google/gemini-2.5-flash",
      ⟨"google/gemini-2.5-flash", .flash, 75/1000, 8192, [.general, .code], "google"⟩),
    ("anthropic/claude-3-haiku",
      ⟨"anthropic/claude-3-haiku", .flash, 25/100, 4096, [.general, .analysis], "anthropic"⟩),
    ("openai/gpt-4o-mini",
      ⟨"openai/gpt-4o-mini", .flash, 15/100, 4096, [.general, .code], "openai"⟩),
    ("deepseek/deepseek-v3",
      ⟨"deepseek/deepseek-v3", .flash, 14/100, 8192, [.code, .math], "deepseek"⟩),
    ("anthropic/claude-3-sonnet",
      ⟨"anthropic/claude-3-sonnet", .balanced, 3, 8192, [.analysis, .review, .general], "anthropic"⟩),
    ("openai/gpt-4o",
      ⟨"openai/gpt-4o", .balanced, 5, 8192, [.code, .analysis, .general], "openai"⟩),
    ("google/gemini-2.5-pro",
      ⟨"google/gemini-2.5-pro", .balanced, 125/100, 8192, [.math, .analysis], "google"⟩),
    ("anthropic/claude-3-opus",
      ⟨"anthropic/claude-3-opus", .power, 15, 8192, [.creative, .analysis, .review], "anthropic"⟩),
    ("openai/gpt-5",
      ⟨"openai/gpt-5", .power, 30, 8192, [.code, .math, .analysis], "openai"⟩),
    ("moonshot/kimi-k2",
      ⟨"moonshot/kimi-k2", .specialist, 2, 32768, [.analysis], "moonshot"⟩),
    ("alibaba/qwen-max-0428",
      ⟨"alibaba/qwen-max-0428", .specialist, 18/10, 8192, [.code, .math], "alibaba"⟩) ]

/-- The `self.models` map of `src/services/advanced_portkey_client.py`
(`AdvancedPortkeyClient.__init__`), in insertion order. -/
def advModels : List (String × ModelConfig) :=
  [ ("openai/gpt-4o",
      ⟨"openai/gpt-4o", .balanced, 5, 8192, [.code, .analysis, .general], "openai"⟩),
    ("openai/gpt-4o-mini",
      ⟨"openai/gpt-4o-mini", .flash, 15/100, 4096, [.general, .code], "openai"⟩),
    ("openai/o1-preview",
      ⟨"openai/o1-preview", .power, 15, 8192, [.math, .code, .analysis], "openai"⟩),
    ("anthropic/claude-3-5-sonnet",
      ⟨"anthropic/claude-3-5-sonnet", .balanced, 3, 8192, [.analysis, .review, .creative], "anthropic"⟩),
    ("anthropic/claude-3-haiku",
      ⟨"anthropic/claude-3-haiku", .flash, 25/100, 4096, [.general, .analysis], "anthropic"⟩),
    ("anthropic/claude-3-opus",
      ⟨"anthropic/claude-3-opus", .power, 15, 8192, [.creative, .analysis, .review], "anthropic"⟩),
    ("google/gemini-2.5-flash",
      ⟨"google/gemini-2.5-flash", .flash, 75/1000, 8192, [.general, .code], "google"⟩),
    ("google/gemini-2.5-pro",
      ⟨"google/gemini-2.5-pro", .balanced, 125/100, 8192, [.math, .analysis], "google"⟩),
    ("groq/llama-3.3-70b-versatile",
      ⟨"groq/llama-3.3-70b-versatile", .flash, 59/100, 8192, [.general, .code], "groq"⟩),
    ("groq/mixtral-8x7b-32768",
      ⟨"groq/mixtral-8x7b-32768", .balanced, 27/100, 32768, [.code, .analysis], "groq"⟩),
    ("deepseek/deepseek-v3",
      ⟨"deepseek/deepseek-v3", .flash, 14/100, 8192, [.code, .math], "deepseek"⟩),
    ("grok/grok-2",
      ⟨"grok/grok-2", .balanced, 2, 8192, [.creative, .general], "grok"⟩) ]

/-- Candidate filter at the top of `_select_optimal_model` (both clients):
the model names whose `strengths` contain the task type, in map iteration
order; all model names when no task type is given. -/
def candidatesOf (models : List (String × ModelConfig)) (task_type : Option TaskType) :
    List String :=
  match task_type with
  | some t => (models.filter (fun p => decide (t ∈ p.2.strengths))).map (fun p => p.1)
  | none => models.map (fun p => p.1)

/-- `self.models[m].cost_per_1m_tokens`, the sort key of the cost-preference
branch and of the fallback-chain sort.  The `getD 0` default is unreachable
whenever `m` is drawn from the map's own keys. -/
def costOf (models : List (String × ModelConfig)) (m : String) : ℚ :=
  ((lookupA models m).map (fun c => c.cost_per_1m_tokens)).getD 0

/-- `self.models[m].tier` for a model name. -/
def tierOf (models : List (String × ModelConfig)) (m : String) : Option ModelTier :=
  (lookupA models m).map (fun c => c.tier)

/-- `max(m.cost_per_1m_tokens for m in self.models.values())`; Python's
`max` raises on an empty iterable, which is unreachable here because the
expression is only evaluated when a candidate (hence a model) exists. -/
def maxCost (models : List (String × ModelConfig)) : ℚ :=
  match models with
  | [] => 0
  | p :: rest => rest.foldl (fun acc q => max acc q.2.cost_per_1m_tokens) p.2.cost_per_1m_tokens

/-- Tier base scores of the balanced branch (identical dict in both files). -/
def tierScore (t : ModelTier) : ℚ :=
  match t with
  | .flash => 6/10
  | .balanced => 8/10
  | .power => 1
  | .specialist => 9/10

/-- Average of a rolling performance history, as a total function; the
empty-list case (where Python would raise `ZeroDivisionError`) is given the
junk value `0` and is excluded by hypotheses where it matters. -/
def perfAvg (l : List ℚ) : ℚ :=
  if l.length = 0 then 0 else (l.foldl (fun a b => a + b) 0) / (l.length : ℚ)

/-- Per-model rolling performance histories, `self.model_performance`. -/
abbrev PerfMap := List (String × List ℚ)

/-- The balanced-branch score of `portkey_client._select_optimal_model`
(lines 289-327), as a total function: tier base score, plus `0.2` when the
tier matches the complexity bracket, plus `0.3` times the historical
average (`0` when the model has no history entry), plus `0.2` times the
normalized inverse cost.  The junk values at a missing model key or an
empty history list are unreachable under the hypotheses used below. -/
def balancedScoreT (models : List (String × ModelConfig)) (perf : PerfMap)
    (complexity : ℚ) (m : String) : ℚ :=
  match lookupA models m with
  | none => 0
  | some cfg =>
    let base := tierScore cfg.tier
    let bracket : ℚ :=
      if complexity < 3/10 ∧ cfg.tier = .flash then 2/10
      else if 3/10 ≤ complexity ∧ complexity < 7/10 ∧ cfg.tier = .balanced then 2/10
      else if 7/10 ≤ complexity ∧ (cfg.tier = .power ∨ cfg.tier = .specialist) then 2/10
      else 0
    let hist : ℚ :=
      match lookupA perf m with
      | some l => perfAvg l * (3/10)
      | none => 0
    let cost : ℚ := (1 - cfg.cost_per_1m_tokens / maxCost models) * (2/10)
    base + bracket + hist + cost

/-- The same balanced-branch score as a partial function: `none` models the
exceptions Python would raise (`KeyError` on a model absent from the map,
`ZeroDivisionError` on an empty history list). -/
def balancedScoreP (models : List (String × ModelConfig)) (perf : PerfMap)
    (complexity : ℚ) (m : String) : Option ℚ :=
  match lookupA models m with
  | none => none
  | some _ =>
    match lookupA perf m with
    | some l => if l.length = 0 then none else some (balancedScoreT models perf complexity m)
    | none => some (balancedScoreT models perf complexity m)

/-- The balanced-branch score of
`advanced_portkey_client._select_optimal_model` (lines 210-239), as a total
function: `0.5` base, plus `0.4` times the tier base score, plus `0.3`
times the normalized inverse cost, plus `0.3` times the historical
average.  It has no complexity-bracket bonus. -/
def advBalancedScoreT (models : List (String × ModelConfig)) (perf : PerfMap)
    (m : String) : ℚ :=
  match lookupA models m with
  | none => 0
  | some cfg =>
    let hist : ℚ :=
      match lookupA perf m with
      | some l => perfAvg l * (3/10)
      | none => 0
    1/2 + tierScore cfg.tier * (4/10)
      + (1 - cfg.cost_per_1m_tokens / maxCost models) * (3/10) + hist

/-- Partial version of `advBalancedScoreT` (see `balancedScoreP`). -/
def advBalancedScoreP (models : List (String × ModelConfig)) (perf : PerfMap)
    (m : String) : Option ℚ :=
  match lookupA models m with
  | none => none
  | some _ =>
    match lookupA perf m with
    | some l => if l.length = 0 then none else some (advBalancedScoreT models perf m)
    | none => some (advBalancedScoreT models perf m)

/-- `portkey_client._select_optimal_model` (lines 248-327).  Returns `none`
where Python raises an uncaught exception: `IndexError` on an empty
candidate list, `ZeroDivisionError` on an empty history list in the
balanced branch. -/
def selectOptimalModel (models : List (String × ModelConfig)) (perf : PerfMap)
    (task_type : Option TaskType) (complexity : ℚ) (cost_preference : String) :
    Option String :=
  let cands := candidatesOf models task_type
  if cost_preference = "cost" then
    let sorted := isortB (minBetter (costOf models)) cands
    if complexity < 3/10 then sorted.get? 0
    else if complexity < 7/10 then sorted.get? (min 1 (sorted.length - 1))
    else sorted.get? (min 2 (sorted.length - 1))
  else if cost_preference = "performance" then
    let power := cands.filter (fun m => decide (tierOf models m = some .power))
    let bal := cands.filter (fun m => decide (tierOf models m = some .balanced))
    if 7/10 < complexity ∧ power ≠ [] then power.head?
    else if bal ≠ [] then bal.head?
    else cands.head?
  else
    (cands.mapM (fun m => (balancedScoreP models perf complexity m).map (fun s => (m, s)))).bind
      (fun scored => ((isortB (maxBetter (fun p => p.2)) scored).head?).map (fun p => p.1))

/-- `advanced_portkey_client._select_optimal_model` (lines 185-239); the
cost branch always returns the cheapest candidate, the performance branch
has no balanced-tier middle case, and the balanced branch scores with
`advBalancedScoreT`. -/
def advSelectOptimalModel (models : List (String × ModelConfig)) (perf : PerfMap)
    (task_type : Option TaskType) (complexity : ℚ) (cost_preference : String) :
    Option String :=
  let cands := candidatesOf models task_type
  if cost_preference = "cost" then
    (isortB (minBetter (costOf models)) cands).head?
  else if cost_preference = "performance" then
    let power := cands.filter (fun m => decide (tierOf models m = some .power))
    if power ≠ [] then power.head? else cands.head?
  else
    (cands.mapM (fun m => (advBalancedScoreP models perf m).map (fun s => (m, s)))).bind
      (fun scored => ((isortB (maxBetter (fun p => p.2)) scored).head?).map (fun p => p.1))

/-- The `same_tier` list of `_get_fallback_chain`: all other models of the
given tier, in map order, excluding the failed model. -/
def sameTierNames (models : List (String × ModelConfig)) (tier : ModelTier)
    (failed_model : String) : List String :=
  (models.filter (fun p => decide (p.2.tier = tier ∧ p.1 ≠ failed_model))).map (fun p => p.1)

/-- The `other_tiers` list of `_get_fallback_chain`: all models of the
other tiers, in map order (sorted by the caller). -/
def otherTierNames (models : List (String × ModelConfig)) (tier : ModelTier) :
    List String :=
  (models.filter (fun p => decide (p.2.tier ≠ tier))).map (fun p => p.1)

/-- `portkey_client._get_fallback_chain` (lines 444-464): all other models
of the failed model's tier in map order, followed by the first **three**
models of the other tiers sorted ascending by cost
(`other_tiers[:3]`). -/
def getFallbackChain (models : List (String × ModelConfig)) (failed_model : String) :
    List String :=
  match lookupA models failed_model with
  | none => []
  | some failed_config =>
    sameTierNames models failed_config.tier failed_model ++
      (isortB (minBetter (costOf models)) (otherTierNames models failed_config.tier)).take 3

/-- The fallback chain as claim C2 states it (from the spec, §4.2): all
other same-tier models in map order, followed by **all** models of the
other tiers sorted ascending by cost, with no truncation. -/
def fallbackChainClaimC2 (models : List (String × ModelConfig)) (failed_model : String) :
    List String :=
  match lookupA models failed_model with
  | none => []
  | some failed_config =>
    sameTierNames models failed_config.tier failed_model ++
      isortB (minBetter (costOf models)) (otherTierNames models failed_config.tier)

/-- The response dictionary flowing through `smart_completion`
(`portkey_client.py`).  Fields the routing logic never reads (usage,
cost_estimate, provider, tier, timestamp) are omitted.  A success response
(`_execute_request`, lines 389-399) has `success = true` and carries the
model, content and latency; the terminal failure dictionary (lines
241-246) has `success = false` with the original error and the model first
attempted.  `from_cache` is the flag `_check_cache` adds on a hit. -/
structure CompletionResult where
  success : Bool
  model_used : Option String
  content : Option String
  execution_time : Option ℚ
  from_cache : Bool
  error : Option String
  model_attempted : Option String
deriving DecidableEq, Repr

/-- Outcome of one transport attempt against a model: the provider call
either yields parseable content with a measured latency, or raises. -/
inductive ExecOutcome
  | ok (content : String) (latency : ℚ)
  | fail (error : String)

/-- The success dictionary `_execute_request` returns (lines 389-399). -/
def successResult (model content : String) (latency : ℚ) : CompletionResult :=
  ⟨true, some model, some content, some latency, false, none, none⟩

/-- The terminal failure dictionary of `smart_completion` (lines 241-246);
its `execution_time` (a wall-clock reading) is not modelled. -/
def failureResult (error model_attempted : String) : CompletionResult :=
  ⟨false, none, none, none, false, some error, some model_attempted⟩

/-- `portkey_client._execute_request` (lines 330-402): raises `ValueError`
on an unknown model, otherwise performs the transport call and either
returns a success dictionary or raises; `.error` models the raise. -/
def executeRequest (oracle : String → ExecOutcome)
    (models : List (String × ModelConfig)) (model : String) :
    Except String CompletionResult :=
  match lookupA models model with
  | none => Except.error ("Unknown model: " ++ model)
  | some _ =>
    match oracle model with
    | ExecOutcome.ok content latency => Except.ok (successResult model content latency)
    | ExecOutcome.fail e => Except.error e

/-- The content `_generate_cache_key` (lines 404-416) hashes: the canonical
JSON of the messages, the task-type tag and the temperature rounded to one
decimal.  The sha256 digest is modelled by its preimage (this normalized
triple); digest collisions are not modelled. -/
structure CacheKey where
  messages : List (String × String)
  task_type : Option TaskType
  temperature : ℚ
deriving DecidableEq, Repr

/-- Python `round(t, 1)` (modelled with round-half-up; the half-to-even
difference is irrelevant to every theorem below). -/
def roundTo1 (t : ℚ) : ℚ := (round (10 * t) : ℤ) / 10

/-- `portkey_client._generate_cache_key` (lines 404-416). -/
def generateCacheKey (messages : List (String × String))
    (task_type : Option TaskType) (temperature : ℚ) : CacheKey :=
  ⟨messages, task_type, roundTo1 temperature⟩

/-- The Redis response cache: key, stored value, store time (seconds).
`setex` semantics are modelled by storing the write time and comparing
against the TTL on read. -/
abbrev RespCache := List (CacheKey × CompletionResult × ℚ)

/-- `self.cache_ttl = 3600` seconds. -/
def cacheTTL : ℚ := 3600

/-- `portkey_client._check_cache` (lines 418-428) against a Redis `setex`
entry: a hit returns the stored value with `from_cache` set; an entry whose
TTL has elapsed is gone (Redis expiry), hence a miss. -/
def checkCache (cache : RespCache) (key : CacheKey) (now : ℚ) :
    Option CompletionResult :=
  (lookupA cache key).bind (fun p =>
    if now - p.2 < cacheTTL then some { p.1 with from_cache := true } else none)

/-- `cache_data.pop("execution_time", None)` in `_cache_response`. -/
def stripExec (r : CompletionResult) : CompletionResult :=
  { r with execution_time := none }

/-- `portkey_client._cache_response` (lines 430-442): store the response
without its timing data, under a fresh TTL starting at the write time. -/
def cacheResponse (cache : RespCache) (key : CacheKey) (r : CompletionResult)
    (now : ℚ) : RespCache :=
  updateA cache key (stripExec r, now)

/-- The trimming step of `_track_metrics` (identical in both clients,
portkey lines 511-515 / advanced lines 407-411): append one sample, then
keep only the last 100 entries. -/
def appendSample (h : List ℚ) (s : ℚ) : List ℚ :=
  let h2 := h ++ [s]
  if h2.length > 100 then h2.drop (h2.length - 100) else h2

/-- The performance score of `_track_metrics`:
`min(1.0, 1.0 / max(0.1, response_time))` on success, `0.0` on failure.
`defaultTime` models the `response.get("execution_time", ...)` default,
used only when the response carries no latency. -/
def perfScore (r : CompletionResult) (defaultTime : ℚ) : ℚ :=
  if r.success then min 1 (1 / max (1/10) ((r.execution_time).getD defaultTime)) else 0

/-- `portkey_client._track_metrics` (lines 481-515) restricted to its
effect on `self.model_performance` (the `metrics_history` analytics log is
not read by any routing decision and is not modelled). -/
def trackMetrics (perf : PerfMap) (model : String) (r : CompletionResult) :
    PerfMap :=
  updateA perf model (appendSample ((lookupA perf model).getD []) (perfScore r 0))

/-- `advanced_portkey_client._track_metrics` (lines 397-411); identical
except that the missing-latency default is `1.0`. -/
def advTrackMetrics (perf : PerfMap) (model : String) (r : CompletionResult) :
    PerfMap :=
  updateA perf model (appendSample ((lookupA perf model).getD []) (perfScore r 1))

/-- The model-choice step of `smart_completion` (lines 197-203): the forced
model when it is set and known, otherwise `_select_optimal_model`. -/
def chooseModel (models : List (String × ModelConfig)) (perf : PerfMap)
    (task_type : Option TaskType) (complexity : ℚ) (cost_preference : String)
    (force_model : Option String) : Option String :=
  match force_model with
  | some f =>
    if (lookupA models f).isSome then some f
    else selectOptimalModel models perf task_type complexity cost_preference
  | none => selectOptimalModel models perf task_type complexity cost_preference

/-- Result of a `smart_completion` call: either a returned dictionary
(success, or the structured failure object), or an exception that escaped
to the caller. -/
inductive SCResult
  | ok (r : CompletionResult)
  | raised
deriving DecidableEq, Repr

/-- Observable outcome of one embedded `smart_completion` call: the result,
the two pieces of client state it may mutate, and the list of models on
which a transport attempt was made (in order). -/
structure SCOutput where
  result : SCResult
  perf : PerfMap
  cache : RespCache
  attempts : List String
deriving DecidableEq, Repr

/-- The fallback loop of `smart_completion` (lines 226-238) followed by the
terminal failure dictionary (lines 241-246): walk the chain, return the
first success (tracking its metrics); a failed fallback attempt is caught,
logged and skipped with **no** metrics tracking; when the chain is
exhausted return the structured failure carrying the original error. -/
def tryFallbacks (oracle : String → ExecOutcome)
    (models : List (String × ModelConfig)) (origError origModel : String)
    (perf : PerfMap) : List String → CompletionResult × PerfMap × List String
  | [] => (failureResult origError origModel, perf, [])
  | fb :: rest =>
    match executeRequest oracle models fb with
    | Except.ok r => (r, trackMetrics perf fb r, [fb])
    | Except.error _ =>
      let out := tryFallbacks oracle models origError origModel perf rest
      (out.1, out.2.1, fb :: out.2.2)

/-- `portkey_client.smart_completion` (lines 158-246).  The cache check,
model choice, primary attempt, success-path caching and tracking, fallback
loop and terminal failure are modelled; `max_tokens` only shapes the
transport payload (absorbed by the oracle) and the monitoring log is a
no-op.  Note that the model-choice step runs **before** the
`try`-block, so its exceptions escape (`SCResult.raised`). -/
def smartCompletion (models : List (String × ModelConfig))
    (oracle : String → ExecOutcome) (perf0 : PerfMap) (cache0 : RespCache)
    (now : ℚ) (messages : List (String × String)) (task_type : Option TaskType)
    (complexity urgency : ℚ) (cost_preference : String)
    (force_model : Option String) (enable_cache enable_fallback : Bool)
    (temperature : ℚ) : SCOutput :=
  let key := generateCacheKey messages task_type temperature
  match (if enable_cache then checkCache cache0 key now else none) with
  | some v => ⟨SCResult.ok v, perf0, cache0, []⟩
  | none =>
    match chooseModel models perf0 task_type complexity cost_preference force_model with
    | none => ⟨SCResult.raised, perf0, cache0, []⟩
    | some model =>
      match executeRequest oracle models model with
      | Except.ok r =>
        let cache1 := if enable_cache && r.success then cacheResponse cache0 key r now
                      else cache0
        ⟨SCResult.ok r, trackMetrics perf0 model r, cache1, [model]⟩
      | Except.error e =>
        if enable_fallback then
          let fb := tryFallbacks oracle models e model perf0 (getFallbackChain models model)
          ⟨SCResult.ok fb.1, fb.2.1, cache0, model :: fb.2.2⟩
        else
          ⟨SCResult.ok (failureResult e model), perf0, cache0, [model]⟩

/-- One entry of the `embedding_models` configuration map
(`embedding_mcp_server.py`). -/
structure EmbModelCfg where
  provider : String
  model : String
  dimensions : ℕ
  cost_per_million_tokens : ℚ
deriving DecidableEq, Repr

/-- `EmbeddingResponse` dataclass (lines 47-62); the free-form `metadata`
dict and the `timestamp` string are not read by the caching logic and are
omitted. -/
structure EmbeddingResponse where
  embeddings : List (List ℚ)
  model_id : String
  provider : String
  dimensions : ℕ
  token_count : ℕ
  cost_estimate : ℚ
  cache_hit : Bool
  processing_time_ms : ℚ
deriving DecidableEq, Repr

/-- The string `EmbeddingRequest.__post_init__` (lines 37-45) feeds to md5
when no explicit `cache_key` is given: list inputs are joined with `"|"`,
then model id and `use_case or ''` are appended with `":"` separators. -/
def cacheInput (text : String ⊕ List String) (model_id : String)
    (use_case : Option String) : String :=
  (match text with
   | Sum.inl s => s
   | Sum.inr l => String.intercalate "|" l) ++ ":" ++ model_id ++ ":" ++ use_case.getD ""

/-- The auto-generated cache key of `EmbeddingRequest.__post_init__`:
`digest` abstracts the md5 hex digest (any fixed function of the hashed
string). -/
def requestCacheKey (digest : String → String) (text : String ⊕ List String)
    (model_id : String) (use_case : Option String) : String :=
  digest (cacheInput text model_id use_case)

/-- `input_texts = request.text if isinstance(request.text, list) else
[request.text]` (provider call preparation). -/
def inputTexts (text : String ⊕ List String) : List String :=
  match text with
  | Sum.inl s => [s]
  | Sum.inr l => l

/-- The in-memory `EmbeddingCache.cache` dict: key, stored response, store
time in **hours**. -/
abbrev EmbCache := List (String × EmbeddingResponse × ℚ)

/-- `EmbeddingCache.get` (lines 72-84): a stored entry is a hit while
strictly younger than the TTL; an entry at or past the TTL is deleted and
the lookup is a miss (lazy expiry at read time). -/
def embCacheGet (ttl_hours : ℚ) (cache : EmbCache) (key : String) (now : ℚ) :
    Option EmbeddingResponse × EmbCache :=
  match lookupA cache key with
  | some p =>
    if now - p.2 < ttl_hours then (some p.1, cache) else (none, removeA cache key)
  | none => (none, cache)

/-- `EmbeddingCache.set` (lines 86-89). -/
def embCacheSet (cache : EmbCache) (key : String) (r : EmbeddingResponse)
    (now : ℚ) : EmbCache :=
  updateA cache key (r, now)

/-- The configuration of `VendorIndependentEmbeddingMCP` (the parts
`get_model_config` and `generate_embedding` read). -/
structure EmbConfig where
  default_model : String
  embedding_models : List (String × EmbModelCfg)
  use_case_mappings : List (String × String)
  fallback_chain : List String
  cache_embeddings : Bool
  cache_ttl_hours : ℚ
deriving Repr

/-- `VendorIndependentEmbeddingMCP.get_model_config` (lines 182-210):
direct lookup, then the default-model indirection for `'default'`, then the
use-case mapping, then the first fallback-chain model present in the map;
`none` models the final `ValueError`. -/
def getModelConfig (cfg : EmbConfig) (model_id : String) : Option EmbModelCfg :=
  match lookupA cfg.embedding_models model_id with
  | some c => some c
  | none =>
    match (if model_id = "default"
           then lookupA cfg.embedding_models cfg.default_model
           else none) with
    | some c => some c
    | none =>
      match (lookupA cfg.use_case_mappings model_id).bind
              (lookupA cfg.embedding_models) with
      | some c => some c
      | none =>
        (cfg.fallback_chain.find?
          (fun f => (lookupA cfg.embedding_models f).isSome)).bind
          (lookupA cfg.embedding_models)

/-- `VendorIndependentEmbeddingMCP.generate_embedding` (lines 212-252) for
a request without an explicit `cache_key`.  `provider` abstracts the
`_generate_*_embedding` calls, which in the source always return a response
(they catch their own errors and fall back to a mock), as a function of the
input texts and the routed model configuration.  In the source the object
stored in the cache is the same object that is then annotated
`cache_hit=False` with its elapsed time, so the stored value carries those
fields (wall-clock `processing_time_ms` is modelled as `0`); a hit returns
the stored response re-annotated `cache_hit=True`.  `none` models the error
path (`get_model_config` raising and, with an empty configured
`fallback_chain` as in the default configuration, `_try_fallback`
re-raising). -/
def generateEmbedding (provider : List String → EmbModelCfg → EmbeddingResponse)
    (cfg : EmbConfig) (cache : EmbCache) (text : String ⊕ List String)
    (model_id : String) (use_case : Option String) (digest : String → String)
    (now : ℚ) : Option EmbeddingResponse × EmbCache :=
  let key := requestCacheKey digest text model_id use_case
  let checked := if cfg.cache_embeddings then embCacheGet cfg.cache_ttl_hours cache key now
                 else (none, cache)
  match checked.1 with
  | some r => (some { r with cache_hit := true, processing_time_ms := 0 }, checked.2)
  | none =>
    match getModelConfig cfg model_id with
    | none => (none, checked.2)
    | some mc =>
      if mc.provider = "openrouter" ∨ mc.provider = "lambda_inference" ∨ mc.provider = "openai" then
        let resp := { provider (inputTexts text) mc with
                      cache_hit := false, processing_time_ms := 0 }
        let cache2 := if cfg.cache_embeddings then embCacheSet checked.2 key resp now
                      else checked.2
        (some resp, cache2)
      else
        (none, checked.2)


theorem lookupA_cons {κ β : Type} [DecidableEq κ] (a : κ) (b : β)
    (rest : List (κ × β)) (k : κ) :
    lookupA ((a, b) :: rest) k = if a = k then some b else lookupA rest k := rfl

theorem insB_ne_nil {α : Type} (better : α → α → Bool) (x : α) (l : List α) :
    insB better x l ≠ [] := by
  cases l with
  | nil => simp [insB]
  | cons y ys => simp only [insB]; split <;> simp

theorem isortB_eq_nil_iff {α : Type} (better : α → α → Bool) (l : List α) :
    isortB better l = [] ↔ l = [] := by
  cases l with
  | nil => simp [isortB]
  | cons x xs =>
    simp only [isortB]
    constructor
    · intro h; exact absurd h (insB_ne_nil _ _ _)
    · intro h; exact absurd h (List.cons_ne_nil _ _)

/-- The first element of the embedded stable sort is `firstBest`. -/
theorem head?_isortB {α : Type} (better : α → α → Bool) (l : List α) :
    (isortB better l).head? = firstBest better l := by
  induction l with
  | nil => rfl
  | cons x xs ih =>
    simp only [isortB, firstBest]
    cases h : isortB better xs with
    | nil =>
      have hxs : xs = [] := (isortB_eq_nil_iff better xs).mp h
      subst hxs
      simp [insB, firstBest, pickB]
    | cons z rest =>
      have hz : firstBest better xs = some z := by
        rw [← ih, h]; rfl
      rw [hz]
      simp only [insB, pickB]
      split <;> simp

theorem firstBest_mem {α : Type} (better : α → α → Bool) (l : List α) :
    ∀ c, firstBest better l = some c → c ∈ l := by
  induction l with
  | nil => intro c h; cases h
  | cons x xs ih =>
    intro c h
    simp only [firstBest] at h
    cases h
    cases hx : firstBest better xs with
    | none => simp [pickB, hx]
    | some y =>
      simp only [pickB, hx]
      split
      · exact List.mem_cons_of_mem _ (ih _ hx)
      · exact List.mem_cons_self x xs

/-- `firstBest` under `maxBetter f` attains the maximal key. -/
theorem firstBest_max {α : Type} (f : α → ℚ) (l : List α) :
    ∀ c, firstBest (maxBetter f) l = some c → ∀ d ∈ l, f d ≤ f c := by
  induction l with
  | nil => intro c h; cases h
  | cons x xs ih =>
    intro c h d hd
    simp only [firstBest] at h
    cases h
    cases hx : firstBest (maxBetter f) xs with
    | none =>
      have hxs : xs = [] := by
        cases xs with
        | nil => rfl
        | cons a b => simp [firstBest] at hx
      subst hxs
      rcases List.mem_cons.mp hd with rfl | hdx
      · simp [pickB, hx]
      · cases hdx
    | some y =>
      simp only [pickB, hx]
      by_cases hb : maxBetter f y x = true
      · rw [if_pos hb]
        rcases List.mem_cons.mp hd with rfl | hdx
        · exact le_of_lt (by simpa [maxBetter] using hb)
        · exact ih _ hx d hdx
      · rw [if_neg hb]
        have hyx : ¬ f x < f y := by simpa [maxBetter] using hb
        rcases List.mem_cons.mp hd with rfl | hdx
        · exact le_refl _
        · exact le_trans (ih _ hx d hdx) (le_of_not_lt hyx)

/-- `firstBest` under `maxBetter f` is the **first** maximal element:
tie-breaking follows original list order. -/
theorem firstBest_first {α : Type} [DecidableEq α] (f : α → ℚ) (l : List α) :
    ∀ c, firstBest (maxBetter f) l = some c →
      ∀ d ∈ l, f d = f c → firstIdx c l ≤ firstIdx d l := by
  induction l with
  | nil => intro c h; cases h
  | cons x xs ih =>
    intro c h d hd hfd
    simp only [firstBest] at h
    cases h
    cases hx : firstBest (maxBetter f) xs with
    | none => simp [pickB, hx, firstIdx]
    | some y =>
      simp only [pickB, hx] at hfd ⊢
      by_cases hb : maxBetter f y x = true
      · rw [if_pos hb] at hfd ⊢
        have hxy : f x < f y := by simpa [maxBetter] using hb
        rcases List.mem_cons.mp hd with rfl | hdx
        · exact absurd hfd (ne_of_lt hxy)
        · have hxny : x ≠ y := by
            intro he; rw [he] at hxy; exact lt_irrefl _ hxy
          have hxnd : x ≠ d := by
            intro he; rw [← he] at hfd; exact absurd hfd (ne_of_lt hxy)
          simp only [firstIdx, if_neg hxny, if_neg hxnd]
          exact Nat.succ_le_succ (ih _ hx d hdx hfd)
      · rw [if_neg hb] at hfd ⊢
        simp [firstIdx]

/-- `firstBest` under `minBetter f` attains the minimal key. -/
theorem firstBest_min {α : Type} (f : α → ℚ) (l : List α) :
    ∀ c, firstBest (minBetter f) l = some c → ∀ d ∈ l, f c ≤ f d := by
  induction l with
  | nil => intro c h; cases h
  | cons x xs ih =>
    intro c h d hd
    simp only [firstBest] at h
    cases h
    cases hx : firstBest (minBetter f) xs with
    | none =>
      have hxs : xs = [] := by
        cases xs with
        | nil => rfl
        | cons a b => simp [firstBest] at hx
      subst hxs
      rcases List.mem_cons.mp hd with rfl | hdx
      · simp [pickB, hx]
      · cases hdx
    | some y =>
      simp only [pickB, hx]
      by_cases hb : minBetter f y x = true
      · rw [if_pos hb]
        have hyx : f y < f x := by simpa [minBetter] using hb
        rcases List.mem_cons.mp hd with rfl | hdx
        · exact le_of_lt hyx
        · exact ih _ hx d hdx
      · rw [if_neg hb]
        have hyx : ¬ f y < f x := by simpa [minBetter] using hb
        rcases List.mem_cons.mp hd with rfl | hdx
        · exact le_refl _
        · exact le_trans (le_of_not_lt hyx) (ih _ hx d hdx)

/-- Pairing a list with its scores commutes with taking the stable-sort
winner by score. -/
theorem firstBest_map_pair {α : Type} (f : α → ℚ) (l : List α) :
    firstBest (maxBetter (fun p : α × ℚ => p.2)) (l.map (fun m => (m, f m))) =
      (firstBest (maxBetter f) l).map (fun m => (m, f m)) := by
  induction l with
  | nil => rfl
  | cons x xs ih =>
    simp only [List.map, firstBest, ih]
    cases hx : firstBest (maxBetter f) xs with
    | none => rfl
    | some y => simp [pickB, maxBetter]; split <;> rfl

theorem lookupA_append_of_eq_none {κ β : Type} [DecidableEq κ]
    {l : List (κ × β)} {k : κ} (l2 : List (κ × β)) (h : lookupA l k = none) :
    lookupA (l ++ l2) k = lookupA l2 k := by
  induction l with
  | nil => rfl
  | cons p rest ih =>
    obtain ⟨a, b⟩ := p
    by_cases ha : a = k
    · rw [lookupA_cons, if_pos ha] at h; cases h
    · rw [lookupA_cons, if_neg ha] at h
      rw [List.cons_append, lookupA_cons, if_neg ha]
      exact ih h

theorem lookupA_append_of_isSome {κ β : Type} [DecidableEq κ]
    {l : List (κ × β)} {k : κ} (l2 : List (κ × β)) (h : (lookupA l k).isSome) :
    lookupA (l ++ l2) k = lookupA l k := by
  induction l with
  | nil => simp [lookupA] at h
  | cons p rest ih =>
    obtain ⟨a, b⟩ := p
    by_cases ha : a = k
    · rw [List.cons_append, lookupA_cons, if_pos ha, lookupA_cons, if_pos ha]
    · rw [lookupA_cons, if_neg ha] at h
      rw [List.cons_append, lookupA_cons, if_neg ha, lookupA_cons, if_neg ha]
      exact ih h

theorem lookupA_map_replace_self {κ β : Type} [DecidableEq κ]
    {l : List (κ × β)} {key : κ} (v : β) (h : (lookupA l key).isSome) :
    lookupA (l.map (fun p => if p.1 = key then (key, v) else p)) key = some v := by
  induction l with
  | nil => simp [lookupA] at h
  | cons p rest ih =>
    obtain ⟨a, b⟩ := p
    by_cases ha : a = key
    · simp only [List.map]
      rw [if_pos ha]
      simp [lookupA_cons]
    · rw [lookupA_cons, if_neg ha] at h
      simp only [List.map]
      rw [if_neg ha, lookupA_cons, if_neg ha]
      exact ih h

theorem lookupA_map_replace_ne {κ β : Type} [DecidableEq κ]
    {l : List (κ × β)} {key k : κ} (v : β) (hk : k ≠ key) :
    lookupA (l.map (fun p => if p.1 = key then (key, v) else p)) k = lookupA l k := by
  induction l with
  | nil => rfl
  | cons p rest ih =>
    obtain ⟨a, b⟩ := p
    by_cases ha : a = key
    · have hak : ¬ key = k := fun he => hk he.symm
      simp only [List.map]
      rw [if_pos ha, lookupA_cons, if_neg hak, lookupA_cons,
        if_neg (fun he : a = k => hak (ha ▸ he)), ih]
    · simp only [List.map]
      rw [if_neg ha, lookupA_cons, lookupA_cons, ih]

theorem lookupA_updateA_self {κ β : Type} [DecidableEq κ]
    (l : List (κ × β)) (key : κ) (v : β) :
    lookupA (updateA l key v) key = some v := by
  unfold updateA
  split
  · exact lookupA_map_replace_self v (by assumption)
  · have h0 : lookupA l key = none := by
      rw [← Option.not_isSome_iff_eq_none]; assumption
    rw [lookupA_append_of_eq_none _ h0, lookupA_cons, if_pos rfl]

theorem lookupA_updateA_ne {κ β : Type} [DecidableEq κ]
    (l : List (κ × β)) (key k : κ) (v : β) (hk : k ≠ key) :
    lookupA (updateA l key v) k = lookupA l k := by
  unfold updateA
  split
  · exact lookupA_map_replace_ne v hk
  · by_cases hs : (lookupA l k).isSome
    · exact lookupA_append_of_isSome _ hs
    · have h0 : lookupA l k = none := by
        rw [← Option.not_isSome_iff_eq_none]; assumption
      rw [lookupA_append_of_eq_none _ h0, h0, lookupA_cons,
        if_neg (fun he : key = k => hk he.symm)]
      rfl

theorem lookupA_isSome_of_mem_keys {models : List (String × ModelConfig)}
    {m : String} (h : m ∈ models.map (fun p => p.1)) :
    (lookupA models m).isSome := by
  induction models with
  | nil => simp at h
  | cons p rest ih =>
    obtain ⟨a, b⟩ := p
    rw [List.map_cons] at h
    rcases List.mem_cons.mp h with rfl | hm
    · rw [lookupA_cons, if_pos rfl]; rfl
    · by_cases ha : a = m
      · rw [lookupA_cons, if_pos ha]; rfl
      · rw [lookupA_cons, if_neg ha]; exact ih hm

/-- Every candidate name is a key of the model map. -/
theorem mem_keys_of_mem_candidatesOf {models : List (String × ModelConfig)}
    {t : Option TaskType} {m : String} (h : m ∈ candidatesOf models t) :
    m ∈ models.map (fun p => p.1) := by
  cases t with
  | none => exact h
  | some tt =>
    simp only [candidatesOf] at h
    obtain ⟨p, hp, rfl⟩ := List.mem_map.mp h
    exact List.mem_map.mpr ⟨p, List.mem_of_mem_filter hp, rfl⟩

theorem mapM_option_eq_map {α β : Type} (f : α → Option β) (g : α → β)
    (l : List α) (h : ∀ m ∈ l, f m = some (g m)) :
    l.mapM f = some (l.map g) := by
  induction l with
  | nil => rfl
  | cons x xs ih =>
    rw [List.mapM_cons, h x (List.mem_cons_self _ _),
      ih (fun m hm => h m (List.mem_cons_of_mem _ hm))]
    rfl

/-- The history trim keeps at most 100 entries, from any starting length. -/
theorem appendSample_length_le (h : List ℚ) (s : ℚ) :
    (appendSample h s).length ≤ 100 ∨ (appendSample h s) = h ++ [s] := by
  simp only [appendSample]
  split
  · left
    rename_i hgt
    rw [List.length_drop]
    omega
  · right; rfl

/-- From a bounded history, the trim yields a bounded history. -/
theorem appendSample_length_le_of_le (h : List ℚ) (s : ℚ)
    (hh : h.length ≤ 100) : (appendSample h s).length ≤ 100 := by
  simp only [appendSample]
  split
  · rw [List.length_drop]
    omega
  · rename_i hle
    simp only [List.length_append, List.length_singleton] at hle ⊢
    omega

/-- Sliding-window characterisation of the history trim: folding samples
into a bounded history keeps exactly the most recent 100 of all samples
ever seen. -/
theorem foldl_appendSample (l : List ℚ) :
    ∀ acc : List ℚ, acc.length ≤ 100 →
      l.foldl appendSample acc = (acc ++ l).drop ((acc ++ l).length - 100) := by
  induction l with
  | nil =>
    intro acc hacc
    rw [List.foldl_nil, List.append_nil, Nat.sub_eq_zero_of_le hacc, List.drop_zero]
  | cons x xs ih =>
    intro acc hacc
    rw [List.foldl_cons]
    by_cases h100 : acc.length = 100
    · have hstep : appendSample acc x = (acc ++ [x]).drop 1 := by
        simp only [appendSample, List.length_append, List.length_singleton, h100]
        norm_num
      have hlen2 : ((acc ++ [x]).drop 1).length ≤ 100 := by
        rw [List.length_drop]
        simp [h100]
      have e1 : (acc ++ [x]).drop 1 ++ xs = (acc ++ x :: xs).drop 1 := by
        cases acc <;> simp
      rw [hstep, ih _ hlen2, e1, List.drop_drop]
      congr 1
      rw [List.length_drop]
      simp only [List.length_append, List.length_cons, h100]
      omega
    · have hle : acc.length + 1 ≤ 100 := by omega
      have hstep : appendSample acc x = acc ++ [x] := by
        simp only [appendSample, List.length_append, List.length_singleton]
        rw [if_neg (by omega)]
      have hlen2 : (acc ++ [x]).length ≤ 100 := by
        simp only [List.length_append, List.length_singleton]
        omega
      rw [hstep, ih _ hlen2, List.append_assoc]
      rfl

/-- Under the no-empty-history invariant, the partial balanced score agrees
with the total one on every model present in the map. -/
theorem balancedScoreP_eq_some (models : List (String × ModelConfig))
    (perf : PerfMap) (complexity : ℚ) (m : String)
    (hm : (lookupA models m).isSome)
    (hp : ∀ k h, lookupA perf k = some h → h ≠ []) :
    balancedScoreP models perf complexity m =
      some (balancedScoreT models perf complexity m) := by
  unfold balancedScoreP
  cases hcm : lookupA models m with
  | none => rw [hcm] at hm; cases hm
  | some cfg =>
    cases hpm : lookupA perf m with
    | none => rfl
    | some l =>
      have hl : l ≠ [] := hp _ _ hpm
      show (if l.length = 0 then (none : Option ℚ)
            else some (balancedScoreT models perf complexity m)) =
          some (balancedScoreT models perf complexity m)
      rw [if_neg (fun h0 => hl (List.length_eq_zero.mp h0))]

theorem advBalancedScoreP_eq_some (models : List (String × ModelConfig))
    (perf : PerfMap) (m : String)
    (hm : (lookupA models m).isSome)
    (hp : ∀ k h, lookupA perf k = some h → h ≠ []) :
    advBalancedScoreP models perf m = some (advBalancedScoreT models perf m) := by
  unfold advBalancedScoreP
  cases hcm : lookupA models m with
  | none => rw [hcm] at hm; cases hm
  | some cfg =>
    cases hpm : lookupA perf m with
    | none => rfl
    | some l =>
      have hl : l ≠ [] := hp _ _ hpm
      show (if l.length = 0 then (none : Option ℚ)
            else some (advBalancedScoreT models perf m)) =
          some (advBalancedScoreT models perf m)
      rw [if_neg (fun h0 => hl (List.length_eq_zero.mp h0))]

/-- The balanced branch of `portkey_client._select_optimal_model` computes
the stable-sort winner of the total balanced score over the candidates. -/
theorem selectOptimalModel_balanced_eq (models : List (String × ModelConfig))
    (perf : PerfMap) (task_type : Option TaskType) (complexity : ℚ)
    (hp : ∀ k h, lookupA perf k = some h → h ≠ []) :
    selectOptimalModel models perf task_type complexity "balanced" =
      firstBest (maxBetter (balancedScoreT models perf complexity))
        (candidatesOf models task_type) := by
  have hsc : (candidatesOf models task_type).mapM
      (fun m => (balancedScoreP models perf complexity m).map (fun s => (m, s))) =
      some ((candidatesOf models task_type).map
        (fun m => (m, balancedScoreT models perf complexity m))) := by
    apply mapM_option_eq_map
    intro m hm
    rw [balancedScoreP_eq_some models perf complexity m
      (lookupA_isSome_of_mem_keys (mem_keys_of_mem_candidatesOf hm)) hp]
    rfl
  simp only [selectOptimalModel]
  rw [if_neg (by decide), if_neg (by decide), hsc, Option.some_bind,
    head?_isortB, firstBest_map_pair]
  cases firstBest (maxBetter (balancedScoreT models perf complexity))
      (candidatesOf models task_type) with
  | none => rfl
  | some c => rfl

/-- The balanced branch of `advanced_portkey_client._select_optimal_model`
computes the stable-sort winner of the advanced balanced score. -/
theorem advSelectOptimalModel_balanced_eq (models : List (String × ModelConfig))
    (perf : PerfMap) (task_type : Option TaskType) (complexity : ℚ)
    (hp : ∀ k h, lookupA perf k = some h → h ≠ []) :
    advSelectOptimalModel models perf task_type complexity "balanced" =
      firstBest (maxBetter (advBalancedScoreT models perf))
        (candidatesOf models task_type) := by
  have hsc : (candidatesOf models task_type).mapM
      (fun m => (advBalancedScoreP models perf m).map (fun s => (m, s))) =
      some ((candidatesOf models task_type).map
        (fun m => (m, advBalancedScoreT models perf m))) := by
    apply mapM_option_eq_map
    intro m hm
    rw [advBalancedScoreP_eq_some models perf m
      (lookupA_isSome_of_mem_keys (mem_keys_of_mem_candidatesOf hm)) hp]
    rfl
  simp only [advSelectOptimalModel]
  rw [if_neg (by decide), if_neg (by decide), hsc, Option.some_bind,
    head?_isortB, firstBest_map_pair]
  cases firstBest (maxBetter (advBalancedScoreT models perf))
      (candidatesOf models task_type) with
  | none => rfl
  | some c => rfl

/-- The low-complexity cost branch returns the stable-sort minimum. -/
theorem selectOptimalModel_cost_low (models : List (String × ModelConfig))
    (perf : PerfMap) (task_type : Option TaskType) (complexity : ℚ)
    (hc : complexity < 3/10) :
    selectOptimalModel models perf task_type complexity "cost" =
      firstBest (minBetter (costOf models)) (candidatesOf models task_type) := by
  simp only [selectOptimalModel]
  rw [if_true, if_pos hc, ← head?_isortB]
  cases isortB (minBetter (costOf models)) (candidatesOf models task_type) with
  | nil => rfl
  | cons a l => rfl

/-- The advanced cost branch returns the stable-sort minimum at every
complexity. -/
theorem advSelectOptimalModel_cost (models : List (String × ModelConfig))
    (perf : PerfMap) (task_type : Option TaskType) (complexity : ℚ) :
    advSelectOptimalModel models perf task_type complexity "cost" =
      firstBest (minBetter (costOf models)) (candidatesOf models task_type) := by
  simp only [advSelectOptimalModel]
  rw [if_true, head?_isortB]

/-- An empty candidate list makes every branch of
`portkey_client._select_optimal_model` raise (`none`). -/
theorem selectOptimalModel_none_of_nil (models : List (String × ModelConfig))
    (perf : PerfMap) (task_type : Option TaskType) (complexity : ℚ)
    (pref : String) (h : candidatesOf models task_type = []) :
    selectOptimalModel models perf task_type complexity pref = none := by
  simp only [selectOptimalModel, h]
  by_cases h1 : pref = "cost"
  · rw [if_pos h1]
    simp [isortB]
  · rw [if_neg h1]
    by_cases h2 : pref = "performance"
    · rw [if_pos h2]
      simp
    · rw [if_neg h2]
      rfl

theorem firstBest_isSome_of_ne_nil {α : Type} (better : α → α → Bool)
    (l : List α) (h : l ≠ []) : ∃ c, firstBest better l = some c := by
  cases l with
  | nil => exact absurd rfl h
  | cons x xs => exact ⟨_, rfl⟩

/-- C2 (counterexample): for the failed model `google/gemini-2.5-flash` the
code's fallback chain is **not** the claimed "all other-tier models sorted
ascending by cost" chain: `_get_fallback_chain` truncates the other-tier
models to the three cheapest (`other_tiers[:3]`), so e.g. `openai/gpt-5`
(an other-tier model) is missing from the chain the code builds. -/
theorem C2_counterexample :
    getFallbackChain portkeyModels "google/gemini-2.5-flash" ≠
      fallbackChainClaimC2 portkeyModels "google/gemini-2.5-flash" ∧
    "openai/gpt-5" ∈ fallbackChainClaimC2 portkeyModels "google/gemini-2.5-flash" ∧
    ¬ "openai/gpt-5" ∈ getFallbackChain portkeyModels "google/gemini-2.5-flash" := by
  decide

/-- C2 (amended): the fallback chain consists of all other same-tier models
in map order followed by only the **three cheapest** models of the other
tiers in ascending cost order; the claimed chain is the code's chain
extended by the remaining other-tier models.  Concretely, the chains the
code builds after a flash-, balanced- and power-tier failure are the three
explicit lists below. -/
theorem C2_fallback_chain_amended :
    (∀ (models : List (String × ModelConfig)) (m : String), ∃ rest,
        fallbackChainClaimC2 models m = getFallbackChain models m ++ rest)
    ∧ getFallbackChain portkeyModels "google/gemini-2.5-flash" =
        ["anthropic/claude-3-haiku", "openai/gpt-4o-mini", "deepseek/deepseek-v3",
         "google/gemini-2.5-pro", "alibaba/qwen-max-0428", "moonshot/kimi-k2"]
    ∧ getFallbackChain portkeyModels "openai/gpt-4o" =
        ["anthropic/claude-3-sonnet", "google/gemini-2.5-pro", "google/gemini-2.5-flash",
         "deepseek/deepseek-v3", "openai/gpt-4o-mini"]
    ∧ getFallbackChain portkeyModels "anthropic/claude-3-opus" =
        ["openai/gpt-5", "google/gemini-2.5-flash", "deepseek/deepseek-v3",
         "openai/gpt-4o-mini"] := by
  refine ⟨?_, by decide, by decide, by decide⟩
  intro models m
  unfold fallbackChainClaimC2 getFallbackChain
  cases hx : lookupA models m with
  | none => exact ⟨[], rfl⟩
  | some cfg =>
    refine ⟨(isortB (minBetter (costOf models)) (otherTierNames models cfg.tier)).drop 3, ?_⟩
    show sameTierNames models cfg.tier m ++
        isortB (minBetter (costOf models)) (otherTierNames models cfg.tier) =
      (sameTierNames models cfg.tier m ++
        (isortB (minBetter (costOf models)) (otherTierNames models cfg.tier)).take 3) ++
        (isortB (minBetter (costOf models)) (otherTierNames models cfg.tier)).drop 3
    rw [List.append_assoc, List.take_append_drop]

set_option maxRecDepth 80000 in
/-- C4 (counterexample): at complexity 0.9 with empty history, the balanced
branch of `advanced_portkey_client._select_optimal_model` returns
`groq/mixtral-8x7b-32768`, although the candidate `openai/o1-preview` has a
strictly higher value of the claimed score (tier base + complexity-bracket
bonus + 0.3·history + 0.2·normalized inverse cost): that selector does not
maximize the claimed score. -/
theorem C4_counterexample :
    advSelectOptimalModel advModels [] none (9/10) "balanced" =
      some "groq/mixtral-8x7b-32768" ∧
    "openai/o1-preview" ∈ candidatesOf advModels none ∧
    balancedScoreT advModels [] (9/10) "groq/mixtral-8x7b-32768" <
      balancedScoreT advModels [] (9/10) "openai/o1-preview" := by
  decide

/-- C4 (amended): under the balanced preference, for every non-empty
candidate list `portkey_client`'s selector returns the first candidate (in
map iteration order) maximizing the claimed score — tier base (flash 0.6,
balanced 0.8, power 1.0, specialist 0.9) + 0.2 complexity-bracket bonus +
0.3·historical average (0 without history) + 0.2·normalized inverse cost —
while `advanced_portkey_client`'s selector instead returns the first
candidate maximizing 0.5 + 0.4·tier base + 0.3·normalized inverse cost +
0.3·historical average, with no complexity bonus.  Ties break to the
earlier candidate in map iteration order in both. -/
theorem C4_balanced_selection_amended :
    (∀ (models : List (String × ModelConfig)) (perf : PerfMap)
        (task_type : Option TaskType) (complexity : ℚ),
      (∀ k h, lookupA perf k = some h → h ≠ []) →
      candidatesOf models task_type ≠ [] →
      ∃ c, selectOptimalModel models perf task_type complexity "balanced" = some c
        ∧ c ∈ candidatesOf models task_type
        ∧ (∀ d ∈ candidatesOf models task_type,
            balancedScoreT models perf complexity d ≤
              balancedScoreT models perf complexity c)
        ∧ (∀ d ∈ candidatesOf models task_type,
            balancedScoreT models perf complexity d =
              balancedScoreT models perf complexity c →
            firstIdx c (candidatesOf models task_type) ≤
              firstIdx d (candidatesOf models task_type)))
    ∧ (∀ (models : List (String × ModelConfig)) (perf : PerfMap)
        (task_type : Option TaskType) (complexity : ℚ),
      (∀ k h, lookupA perf k = some h → h ≠ []) →
      candidatesOf models task_type ≠ [] →
      ∃ c, advSelectOptimalModel models perf task_type complexity "balanced" = some c
        ∧ c ∈ candidatesOf models task_type
        ∧ (∀ d ∈ candidatesOf models task_type,
            advBalancedScoreT models perf d ≤ advBalancedScoreT models perf c)
        ∧ (∀ d ∈ candidatesOf models task_type,
            advBalancedScoreT models perf d = advBalancedScoreT models perf c →
            firstIdx c (candidatesOf models task_type) ≤
              firstIdx d (candidatesOf models task_type))) := by
  constructor
  · intro models perf task c hp hne
    rw [selectOptimalModel_balanced_eq models perf task c hp]
    obtain ⟨w, hw⟩ := firstBest_isSome_of_ne_nil
      (maxBetter (balancedScoreT models perf c)) _ hne
    rw [hw]
    exact ⟨w, rfl, firstBest_mem _ _ _ hw, firstBest_max _ _ _ hw,
      firstBest_first _ _ _ hw⟩
  · intro models perf task c hp hne
    rw [advSelectOptimalModel_balanced_eq models perf task c hp]
    obtain ⟨w, hw⟩ := firstBest_isSome_of_ne_nil
      (maxBetter (advBalancedScoreT models perf)) _ hne
    rw [hw]
    exact ⟨w, rfl, firstBest_mem _ _ _ hw, firstBest_max _ _ _ hw,
      firstBest_first _ _ _ hw⟩

/-- C4 (witness): the amended selection property instantiated on both
model maps, with no history and complexity 0.5. -/
theorem C4_witness :
    (∃ c, selectOptimalModel portkeyModels [] none (1/2) "balanced" = some c
      ∧ c ∈ candidatesOf portkeyModels none
      ∧ (∀ d ∈ candidatesOf portkeyModels none,
          balancedScoreT portkeyModels [] (1/2) d ≤ balancedScoreT portkeyModels [] (1/2) c)
      ∧ (∀ d ∈ candidatesOf portkeyModels none,
          balancedScoreT portkeyModels [] (1/2) d = balancedScoreT portkeyModels [] (1/2) c →
          firstIdx c (candidatesOf portkeyModels none) ≤
            firstIdx d (candidatesOf portkeyModels none)))
    ∧ (∃ c, advSelectOptimalModel advModels [] none (1/2) "balanced" = some c
      ∧ c ∈ candidatesOf advModels none
      ∧ (∀ d ∈ candidatesOf advModels none,
          advBalancedScoreT advModels [] d ≤ advBalancedScoreT advModels [] c)
      ∧ (∀ d ∈ candidatesOf advModels none,
          advBalancedScoreT advModels [] d = advBalancedScoreT advModels [] c →
          firstIdx c (candidatesOf advModels none) ≤
            firstIdx d (candidatesOf advModels none))) :=
  ⟨C4_balanced_selection_amended.1 portkeyModels [] none (1/2)
      (fun k h hk => by simp [lookupA] at hk) (by decide),
   C4_balanced_selection_amended.2 advModels [] none (1/2)
      (fun k h hk => by simp [lookupA] at hk) (by decide)⟩

set_option maxRecDepth 80000 in
set_option maxRecDepth 80000 in
/-- C5 (counterexample): under the cost preference at complexity 0.5 (in
[0.3, 0.7)) with at least two candidates, `advanced_portkey_client`'s
selector returns the cheapest candidate (`google/gemini-2.5-flash`), not
the index-1 entry of the cost-sorted candidate list
(`deepseek/deepseek-v3`) that the claim requires: that selector ignores the
complexity bracket. -/
theorem C5_counterexample :
    advSelectOptimalModel advModels [] none (1/2) "cost" =
      some "google/gemini-2.5-flash" ∧
    (isortB (minBetter (costOf advModels)) (candidatesOf advModels none)).get?
        (min 1 ((isortB (minBetter (costOf advModels))
          (candidatesOf advModels none)).length - 1)) =
      some "deepseek/deepseek-v3" ∧
    "google/gemini-2.5-flash" ≠ "deepseek/deepseek-v3" := by
  decide

/-- C5 (amended): under the cost preference `portkey_client`'s selector
sorts candidates ascending by cost and indexes by complexity bracket —
index 0 below 0.3 (hence the cheapest candidate), index 1 clamped in
[0.3, 0.7) and index 2 clamped above — while `advanced_portkey_client`'s
selector returns the cheapest candidate (index 0) at **every** complexity.
At complexity 0.1 both return the cheapest; the three concrete selections
below exhibit the index-0/1/2 bracket behaviour of `portkey_client` on its
model map. -/
theorem C5_cost_selection_amended :
    (∀ (models : List (String × ModelConfig)) (perf : PerfMap)
        (task_type : Option TaskType) (complexity : ℚ),
      complexity < 3/10 →
      candidatesOf models task_type ≠ [] →
      ∃ c, selectOptimalModel models perf task_type complexity "cost" = some c
        ∧ c ∈ candidatesOf models task_type
        ∧ ∀ d ∈ candidatesOf models task_type, costOf models c ≤ costOf models d)
    ∧ (∀ (models : List (String × ModelConfig)) (perf : PerfMap)
        (task_type : Option TaskType) (complexity : ℚ),
      candidatesOf models task_type ≠ [] →
      ∃ c, advSelectOptimalModel models perf task_type complexity "cost" = some c
        ∧ c ∈ candidatesOf models task_type
        ∧ ∀ d ∈ candidatesOf models task_type, costOf models c ≤ costOf models d)
    ∧ selectOptimalModel portkeyModels [] none (1/10) "cost" =
        some "google/gemini-2.5-flash"
    ∧ selectOptimalModel portkeyModels [] none (1/2) "cost" =
        some "deepseek/deepseek-v3"
    ∧ selectOptimalModel portkeyModels [] none (9/10) "cost" =
        some "openai/gpt-4o-mini"
    ∧ advSelectOptimalModel advModels [] none (1/10) "cost" =
        some "google/gemini-2.5-flash" := by
  refine ⟨?_, ?_, by decide, by decide, by decide, by decide⟩
  · intro models perf task c hc hne
    rw [selectOptimalModel_cost_low models perf task c hc]
    obtain ⟨w, hw⟩ := firstBest_isSome_of_ne_nil (minBetter (costOf models)) _ hne
    rw [hw]
    exact ⟨w, rfl, firstBest_mem _ _ _ hw, firstBest_min _ _ _ hw⟩
  · intro models perf task c hne
    rw [advSelectOptimalModel_cost models perf task c]
    obtain ⟨w, hw⟩ := firstBest_isSome_of_ne_nil (minBetter (costOf models)) _ hne
    rw [hw]
    exact ⟨w, rfl, firstBest_mem _ _ _ hw, firstBest_min _ _ _ hw⟩

/-- C5 (witness): the amended cost-preference property instantiated on both
model maps. -/
theorem C5_witness :
    (∃ c, selectOptimalModel portkeyModels [] none (1/10) "cost" = some c
      ∧ c ∈ candidatesOf portkeyModels none
      ∧ ∀ d ∈ candidatesOf portkeyModels none,
          costOf portkeyModels c ≤ costOf portkeyModels d)
    ∧ (∃ c, advSelectOptimalModel advModels [] none (1/2) "cost" = some c
      ∧ c ∈ candidatesOf advModels none
      ∧ ∀ d ∈ candidatesOf advModels none, costOf advModels c ≤ costOf advModels d) :=
  ⟨C5_cost_selection_amended.1 portkeyModels [] none (1/10) (by decide) (by decide),
   C5_cost_selection_amended.2.1 advModels [] none (1/2) (by decide)⟩

theorem updateA_appendSample_bounded (perf : PerfMap) (model : String) (s : ℚ)
    (hb : ∀ k h, lookupA perf k = some h → h.length ≤ 100) :
    ∀ k h, lookupA (updateA perf model
        (appendSample ((lookupA perf model).getD []) s)) k = some h →
      h.length ≤ 100 := by
  intro k h hk
  by_cases hkm : k = model
  · subst hkm
    rw [lookupA_updateA_self] at hk
    have hbase : ((lookupA perf k).getD []).length ≤ 100 := by
      cases hb0 : lookupA perf k with
      | none => simp
      | some h0 => simpa using hb _ _ hb0
    injection hk with hx
    rw [← hx]
    exact appendSample_length_le_of_le _ _ hbase
  · rw [lookupA_updateA_ne _ _ _ _ hkm] at hk
    exact hb _ _ hk

/-- C9: the per-model rolling performance history never exceeds 100 entries
and always holds the most recent samples — both clients' `_track_metrics`
preserve the bound, the fold of any sample sequence into an empty history
is exactly its most recent 100 samples, and after 150 recorded samples
exactly the 100 most recent remain. -/
theorem C9_performance_history_bounded :
    (∀ (perf : PerfMap) (model : String) (r : CompletionResult),
      (∀ k h, lookupA perf k = some h → h.length ≤ 100) →
      ∀ k h, lookupA (trackMetrics perf model r) k = some h → h.length ≤ 100)
    ∧ (∀ (perf : PerfMap) (model : String) (r : CompletionResult),
      (∀ k h, lookupA perf k = some h → h.length ≤ 100) →
      ∀ k h, lookupA (advTrackMetrics perf model r) k = some h → h.length ≤ 100)
    ∧ (∀ samples : List ℚ,
        samples.foldl appendSample [] = samples.drop (samples.length - 100))
    ∧ (∀ samples : List ℚ, samples.length = 150 →
        samples.foldl appendSample [] = samples.drop 50
        ∧ (samples.foldl appendSample []).length = 100) := by
  refine ⟨?_, ?_, ?_, ?_⟩
  · intro perf model r hb
    exact updateA_appendSample_bounded perf model _ hb
  · intro perf model r hb
    exact updateA_appendSample_bounded perf model _ hb
  · intro samples
    have h := foldl_appendSample samples [] (by simp)
    simpa using h
  · intro samples h150
    have h := foldl_appendSample samples [] (by simp)
    simp only [List.nil_append] at h
    have hdrop : samples.foldl appendSample [] = samples.drop 50 := by
      rw [h, h150]
    refine ⟨hdrop, ?_⟩
    rw [hdrop, List.length_drop, h150]

/-- C9 (witness): the bounding property applied to a concrete tracking
operation and a concrete 150-sample sequence. -/
theorem C9_witness :
    (∀ k h, lookupA (trackMetrics [] "model-a" (successResult "model-a" "ok" 1)) k =
        some h → h.length ≤ 100)
    ∧ (List.replicate 150 (0:ℚ)).foldl appendSample [] =
        (List.replicate 150 (0:ℚ)).drop 50
    ∧ ((List.replicate 150 (0:ℚ)).foldl appendSample []).length = 100 :=
  ⟨C9_performance_history_bounded.1 [] "model-a" _ (fun k h hk => by simp [lookupA] at hk),
   (C9_performance_history_bounded.2.2.2 _ (by simp)).1,
   (C9_performance_history_bounded.2.2.2 _ (by simp)).2⟩

theorem checkCache_from_cache (cache : RespCache) (key : CacheKey) (now : ℚ)
    (v : CompletionResult) (h : checkCache cache key now = some v) :
    v.from_cache = true := by
  unfold checkCache at h
  cases hl : lookupA cache key with
  | none => rw [hl] at h; cases h
  | some p =>
    rw [hl, Option.some_bind] at h
    by_cases hc : now - p.2 < cacheTTL
    · rw [if_pos hc] at h
      injection h with hv
      rw [← hv]
    · rw [if_neg hc] at h
      cases h

theorem executeRequest_eq_ok (oracle : String → ExecOutcome)
    (models : List (String × ModelConfig)) (model content : String) (lat : ℚ)
    (hin : (lookupA models model).isSome)
    (hor : oracle model = ExecOutcome.ok content lat) :
    executeRequest oracle models model = Except.ok (successResult model content lat) := by
  unfold executeRequest
  cases hl : lookupA models model with
  | none => rw [hl] at hin; cases hin
  | some cfg => rw [hor]

theorem executeRequest_eq_error (oracle : String → ExecOutcome)
    (models : List (String × ModelConfig)) (model e : String)
    (hin : (lookupA models model).isSome)
    (hor : oracle model = ExecOutcome.fail e) :
    executeRequest oracle models model = Except.error e := by
  unfold executeRequest
  cases hl : lookupA models model with
  | none => rw [hl] at hin; cases hin
  | some cfg => rw [hor]

theorem executeRequest_ok_shape (oracle : String → ExecOutcome)
    (models : List (String × ModelConfig)) (model : String) (r : CompletionResult)
    (h : executeRequest oracle models model = Except.ok r) :
    ∃ content lat, oracle model = ExecOutcome.ok content lat
      ∧ r = successResult model content lat := by
  unfold executeRequest at h
  cases hl : lookupA models model with
  | none => rw [hl] at h; cases h
  | some cfg =>
    rw [hl] at h
    cases hor : oracle model with
    | ok content lat =>
      rw [hor] at h
      injection h with hr
      exact ⟨content, lat, rfl, hr.symm⟩
    | fail e => rw [hor] at h; cases h

/-- The fallback loop either returns the success dictionary of the first
succeeding chain entry, tracking exactly that one attempt's sample, or —
when the whole chain failed — the structured failure carrying the original
error, with the performance state untouched. -/
theorem tryFallbacks_spec (oracle : String → ExecOutcome)
    (models : List (String × ModelConfig)) (e m0 : String) (perf : PerfMap) :
    ∀ chain : List String,
      ((tryFallbacks oracle models e m0 perf chain).1.success = true →
        ∃ mu content lat,
          (tryFallbacks oracle models e m0 perf chain).1 = successResult mu content lat
          ∧ mu ∈ chain
          ∧ (tryFallbacks oracle models e m0 perf chain).2.1 =
              trackMetrics perf mu (successResult mu content lat))
      ∧ ((tryFallbacks oracle models e m0 perf chain).1.success = false →
        (tryFallbacks oracle models e m0 perf chain).1 = failureResult e m0
        ∧ (tryFallbacks oracle models e m0 perf chain).2.1 = perf) := by
  intro chain
  induction chain with
  | nil => exact ⟨(fun h => by cases h), fun _ => ⟨rfl, rfl⟩⟩
  | cons fb rest ih =>
    simp only [tryFallbacks]
    cases hex : executeRequest oracle models fb with
    | ok r =>
      obtain ⟨content, lat, hor, hr⟩ := executeRequest_ok_shape oracle models fb r hex
      subst hr
      exact ⟨fun _ => ⟨fb, content, lat, rfl, List.mem_cons_self _ _, rfl⟩,
        (fun h => by cases h)⟩
    | error e2 =>
      refine ⟨fun h => ?_, fun h => ?_⟩
      · obtain ⟨mu, content, lat, h1, h2, h3⟩ := ih.1 h
        exact ⟨mu, content, lat, h1, List.mem_cons_of_mem _ h2, h3⟩
      · exact ih.2 h

/-- Unfolding of `smart_completion` on a cache miss with a chosen model
whose primary attempt succeeds: the success dictionary is returned, cached
when caching is enabled, and one sample is tracked for the model. -/
theorem smartCompletion_primary_ok (models : List (String × ModelConfig))
    (oracle : String → ExecOutcome) (perf0 : PerfMap) (cache0 : RespCache)
    (now : ℚ) (messages : List (String × String)) (task_type : Option TaskType)
    (complexity urgency : ℚ) (cost_preference : String) (force_model : Option String)
    (enable_cache enable_fallback : Bool) (temperature : ℚ)
    (model content : String) (lat : ℚ)
    (hm : (if enable_cache then checkCache cache0
        (generateCacheKey messages task_type temperature) now else none) = none)
    (hsel : chooseModel models perf0 task_type complexity cost_preference force_model =
      some model)
    (hin : (lookupA models model).isSome)
    (hor : oracle model = ExecOutcome.ok content lat) :
    smartCompletion models oracle perf0 cache0 now messages task_type complexity
        urgency cost_preference force_model enable_cache enable_fallback temperature =
      ⟨SCResult.ok (successResult model content lat),
       trackMetrics perf0 model (successResult model content lat),
       (if enable_cache then cacheResponse cache0
          (generateCacheKey messages task_type temperature)
          (successResult model content lat) now else cache0),
       [model]⟩ := by
  simp only [smartCompletion, hm, hsel,
    executeRequest_eq_ok oracle models model content lat hin hor,
    successResult, Bool.and_true]

/-- Unfolding of `smart_completion` on a cache miss with a chosen model
whose primary attempt fails while fallback is enabled: the fallback loop's
outcome is returned, and the cache is untouched. -/
theorem smartCompletion_primary_fail_fb (models : List (String × ModelConfig))
    (oracle : String → ExecOutcome) (perf0 : PerfMap) (cache0 : RespCache)
    (now : ℚ) (messages : List (String × String)) (task_type : Option TaskType)
    (complexity urgency : ℚ) (cost_preference : String) (force_model : Option String)
    (enable_cache : Bool) (temperature : ℚ) (model e : String)
    (hm : (if enable_cache then checkCache cache0
        (generateCacheKey messages task_type temperature) now else none) = none)
    (hsel : chooseModel models perf0 task_type complexity cost_preference force_model =
      some model)
    (hin : (lookupA models model).isSome)
    (hor : oracle model = ExecOutcome.fail e) :
    smartCompletion models oracle perf0 cache0 now messages task_type complexity
        urgency cost_preference force_model enable_cache true temperature =
      ⟨SCResult.ok (tryFallbacks oracle models e model perf0
          (getFallbackChain models model)).1,
       (tryFallbacks oracle models e model perf0 (getFallbackChain models model)).2.1,
       cache0,
       model :: (tryFallbacks oracle models e model perf0
          (getFallbackChain models model)).2.2⟩ := by
  simp only [smartCompletion, hm, hsel,
    executeRequest_eq_error oracle models model e hin hor, if_true]

/-- Unfolding of `smart_completion` on a cache miss with a chosen model
whose primary attempt fails while fallback is disabled: the structured
failure dictionary is returned and neither state changes. -/
theorem smartCompletion_primary_fail_nofb (models : List (String × ModelConfig))
    (oracle : String → ExecOutcome) (perf0 : PerfMap) (cache0 : RespCache)
    (now : ℚ) (messages : List (String × String)) (task_type : Option TaskType)
    (complexity urgency : ℚ) (cost_preference : String) (force_model : Option String)
    (enable_cache : Bool) (temperature : ℚ) (model e : String)
    (hm : (if enable_cache then checkCache cache0
        (generateCacheKey messages task_type temperature) now else none) = none)
    (hsel : chooseModel models perf0 task_type complexity cost_preference force_model =
      some model)
    (hin : (lookupA models model).isSome)
    (hor : oracle model = ExecOutcome.fail e) :
    smartCompletion models oracle perf0 cache0 now messages task_type complexity
        urgency cost_preference force_model enable_cache false temperature =
      ⟨SCResult.ok (failureResult e model), perf0, cache0, [model]⟩ := by
  simp only [smartCompletion, hm, hsel,
    executeRequest_eq_error oracle models model e hin hor]
  rfl

/-- `smart_completion` lets an exception escape exactly when the cache
check misses and the model-choice step raises (the choice runs before the
`try`-block of the source). -/
theorem smartCompletion_raised_iff (models : List (String × ModelConfig))
    (oracle : String → ExecOutcome) (perf0 : PerfMap) (cache0 : RespCache)
    (now : ℚ) (messages : List (String × String)) (task_type : Option TaskType)
    (complexity urgency : ℚ) (cost_preference : String) (force_model : Option String)
    (enable_cache enable_fallback : Bool) (temperature : ℚ) :
    (smartCompletion models oracle perf0 cache0 now messages task_type complexity
        urgency cost_preference force_model enable_cache enable_fallback
        temperature).result = SCResult.raised ↔
      ((if enable_cache then checkCache cache0
          (generateCacheKey messages task_type temperature) now else none) = none
       ∧ chooseModel models perf0 task_type complexity cost_preference force_model =
          none) := by
  cases hcc : (if enable_cache then checkCache cache0
      (generateCacheKey messages task_type temperature) now else none) with
  | some v =>
    simp only [smartCompletion, hcc]
    constructor
    · intro h; cases h
    · intro h; cases h.1
  | none =>
    cases hsel : chooseModel models perf0 task_type complexity cost_preference
        force_model with
    | none => simp [smartCompletion, hcc, hsel]
    | some model =>
      simp only [smartCompletion, hcc, hsel]
      cases hex : executeRequest oracle models model with
      | ok r =>
        simp only [hex]
        constructor
        · intro h; cases h
        · intro h; cases h.2
      | error e =>
        simp only [hex]
        cases enable_fallback with
        | true =>
          constructor
          · intro h; cases h
          · intro h; cases h.2
        | false =>
          constructor
          · intro h; cases h
          · intro h; cases h.2

/-- C1 (counterexample): with a model map whose only model lacks the MATH
strength, a MATH-tagged request filters to an empty candidate list, and
`smart_completion` terminates with the uncaught `IndexError` of
`_select_optimal_model` escaping to the caller (the model choice runs
before the `try`-block): no `NoSuitableModel` error exists and no
structured failure object is returned. -/
theorem C1_counterexample :
    candidatesOf [("m1", ⟨"m1", ModelTier.flash, 1, 100, [TaskType.code], "p"⟩)]
        (some TaskType.math) = [] ∧
    smartCompletion [("m1", ⟨"m1", ModelTier.flash, 1, 100, [TaskType.code], "p"⟩)]
        (fun _ => ExecOutcome.fail "down") [] [] 0 [("user", "hi")]
        (some TaskType.math) (1/2) (1/2) "balanced" none true true (7/10) =
      ⟨SCResult.raised, [], [], []⟩ := by
  decide

/-- C1 (amended): an empty filtered candidate list makes
`_select_optimal_model` raise an uncaught `IndexError` (modelled `none`) —
there is no `NoSuitableModel` structured failure — and `smart_completion`
lets an exception escape to the caller **exactly** when the cache check
misses and the model-choice step raises; in every other situation it
returns a result object (a success or a structured failure). -/
theorem C1_empty_candidates_amended :
    (∀ (models : List (String × ModelConfig)) (perf : PerfMap)
        (task_type : Option TaskType) (complexity : ℚ) (pref : String),
      candidatesOf models task_type = [] →
      selectOptimalModel models perf task_type complexity pref = none)
    ∧ (∀ (models : List (String × ModelConfig)) (oracle : String → ExecOutcome)
        (perf0 : PerfMap) (cache0 : RespCache) (now : ℚ)
        (messages : List (String × String)) (task_type : Option TaskType)
        (complexity urgency : ℚ) (cost_preference : String)
        (force_model : Option String) (enable_cache enable_fallback : Bool)
        (temperature : ℚ),
      (smartCompletion models oracle perf0 cache0 now messages task_type complexity
          urgency cost_preference force_model enable_cache enable_fallback
          temperature).result = SCResult.raised ↔
        ((if enable_cache then checkCache cache0
            (generateCacheKey messages task_type temperature) now else none) = none
         ∧ chooseModel models perf0 task_type complexity cost_preference
            force_model = none)) :=
  ⟨fun models perf task_type complexity pref h =>
    selectOptimalModel_none_of_nil models perf task_type complexity pref h,
   fun models oracle perf0 cache0 now messages task_type complexity urgency
      cost_preference force_model enable_cache enable_fallback temperature =>
    smartCompletion_raised_iff models oracle perf0 cache0 now messages task_type
      complexity urgency cost_preference force_model enable_cache enable_fallback
      temperature⟩

/-- C1 (witness): the amended property instantiated at the single-model
map and MATH request of the counterexample. -/
theorem C1_witness :
    selectOptimalModel [("m1", ⟨"m1", ModelTier.flash, 1, 100, [TaskType.code], "p"⟩)]
        [] (some TaskType.math) (1/2) "balanced" = none
    ∧ ((smartCompletion [("m1", ⟨"m1", ModelTier.flash, 1, 100, [TaskType.code], "p"⟩)]
        (fun _ => ExecOutcome.fail "down") [] [] 0 [("user", "hi")]
        (some TaskType.math) (1/2) (1/2) "balanced" none true true
        (7/10)).result = SCResult.raised ↔
      ((if true then checkCache []
          (generateCacheKey [("user", "hi")] (some TaskType.math) (7/10)) 0
        else none) = none
       ∧ chooseModel [("m1", ⟨"m1", ModelTier.flash, 1, 100, [TaskType.code], "p"⟩)]
          [] (some TaskType.math) (1/2) "balanced" none = none)) :=
  ⟨C1_empty_candidates_amended.1 _ [] (some TaskType.math) (1/2) "balanced" (by decide),
   C1_empty_candidates_amended.2 _ (fun _ => ExecOutcome.fail "down") [] [] 0
     [("user", "hi")] (some TaskType.math) (1/2) (1/2) "balanced" none true true (7/10)⟩

set_option maxRecDepth 80000 in
/-- C3 (counterexample): a `smart_completion` call forced onto
`openai/gpt-4o` whose transport fails and whose first fallback
(`anthropic/claude-3-sonnet`) succeeds: `openai/gpt-4o` was attempted and
failed, yet its rolling history receives **no** sample (the claimed `0.0`
failure sample is never recorded, because a failed attempt raises before
`_track_metrics` is reached); only the succeeding fallback gets a sample. -/
theorem C3_counterexample :
    (smartCompletion portkeyModels
        (fun m => if m = "openai/gpt-4o" then ExecOutcome.fail "boom"
          else ExecOutcome.ok "ok" 1)
        [] [] 0 [("user", "hi")] none (1/2) (1/2) "balanced"
        (some "openai/gpt-4o") false true (7/10)).attempts =
      ["openai/gpt-4o", "anthropic/claude-3-sonnet"] ∧
    lookupA (smartCompletion portkeyModels
        (fun m => if m = "openai/gpt-4o" then ExecOutcome.fail "boom"
          else ExecOutcome.ok "ok" 1)
        [] [] 0 [("user", "hi")] none (1/2) (1/2) "balanced"
        (some "openai/gpt-4o") false true (7/10)).perf "openai/gpt-4o" = none ∧
    lookupA (smartCompletion portkeyModels
        (fun m => if m = "openai/gpt-4o" then ExecOutcome.fail "boom"
          else ExecOutcome.ok "ok" 1)
        [] [] 0 [("user", "hi")] none (1/2) (1/2) "balanced"
        (some "openai/gpt-4o") false true (7/10)).perf
      "anthropic/claude-3-sonnet" = some [1] := by
  decide

/-- C3 (amended): on a cache miss, only a *successful* attempt appends a
performance sample — the returned attempt's model gets exactly one sample
scored `min(1, 1/max(0.1, latency))` via `_track_metrics` — while failed
attempts (the primary raising into the `except`-block, and fallbacks whose
exceptions are swallowed by `continue`) append nothing: after a terminal
failure the whole performance state is unchanged. -/
theorem C3_metrics_amended (models : List (String × ModelConfig))
    (oracle : String → ExecOutcome) (perf0 : PerfMap) (cache0 : RespCache)
    (now : ℚ) (messages : List (String × String)) (task_type : Option TaskType)
    (complexity urgency : ℚ) (cost_preference : String)
    (force_model : Option String) (enable_cache enable_fallback : Bool)
    (temperature : ℚ) (model : String)
    (hm : (if enable_cache then checkCache cache0
        (generateCacheKey messages task_type temperature) now else none) = none)
    (hsel : chooseModel models perf0 task_type complexity cost_preference
      force_model = some model)
    (hin : (lookupA models model).isSome) :
    (∀ content lat, oracle model = ExecOutcome.ok content lat →
      (smartCompletion models oracle perf0 cache0 now messages task_type complexity
          urgency cost_preference force_model enable_cache enable_fallback
          temperature).perf =
        trackMetrics perf0 model (successResult model content lat)
      ∧ (smartCompletion models oracle perf0 cache0 now messages task_type
          complexity urgency cost_preference force_model enable_cache
          enable_fallback temperature).attempts = [model])
    ∧ (∀ e, oracle model = ExecOutcome.fail e →
      (smartCompletion models oracle perf0 cache0 now messages task_type complexity
          urgency cost_preference force_model enable_cache false
          temperature).perf = perf0)
    ∧ (∀ e, oracle model = ExecOutcome.fail e →
      ((tryFallbacks oracle models e model perf0
          (getFallbackChain models model)).1.success = true →
        ∃ mu content lat,
          (tryFallbacks oracle models e model perf0
            (getFallbackChain models model)).1 = successResult mu content lat
          ∧ mu ∈ getFallbackChain models model
          ∧ (smartCompletion models oracle perf0 cache0 now messages task_type
              complexity urgency cost_preference force_model enable_cache true
              temperature).perf =
              trackMetrics perf0 mu (successResult mu content lat))
      ∧ ((tryFallbacks oracle models e model perf0
          (getFallbackChain models model)).1.success = false →
        (smartCompletion models oracle perf0 cache0 now messages task_type
            complexity urgency cost_preference force_model enable_cache true
            temperature).perf = perf0)) := by
  refine ⟨?_, ?_, ?_⟩
  · intro content lat hor
    rw [smartCompletion_primary_ok models oracle perf0 cache0 now messages task_type
      complexity urgency cost_preference force_model enable_cache enable_fallback
      temperature model content lat hm hsel hin hor]
    exact ⟨rfl, rfl⟩
  · intro e hor
    rw [smartCompletion_primary_fail_nofb models oracle perf0 cache0 now messages
      task_type complexity urgency cost_preference force_model enable_cache
      temperature model e hm hsel hin hor]
  · intro e hor
    have hfb := tryFallbacks_spec oracle models e model perf0
      (getFallbackChain models model)
    rw [smartCompletion_primary_fail_fb models oracle perf0 cache0 now messages
      task_type complexity urgency cost_preference force_model enable_cache
      temperature model e hm hsel hin hor]
    refine ⟨fun hs => ?_, fun hs => ?_⟩
    · obtain ⟨mu, content, lat, h1, h2, h3⟩ := hfb.1 hs
      exact ⟨mu, content, lat, h1, h2, h3⟩
    · exact (hfb.2 hs).2

/-- C3 (witness): the amended metrics property instantiated on a two-model
map with the forced primary model failing. -/
theorem C3_witness :
    (∀ content lat,
      (fun m => if m = "a" then ExecOutcome.fail "x" else ExecOutcome.ok "y" 1) "a" =
        ExecOutcome.ok content lat →
      (smartCompletion
          [("a", ⟨"a", ModelTier.flash, 1, 10, [TaskType.code], "p"⟩),
           ("b", ⟨"b", ModelTier.flash, 2, 10, [TaskType.code], "p"⟩)]
          (fun m => if m = "a" then ExecOutcome.fail "x" else ExecOutcome.ok "y" 1)
          [] [] 0 [("u", "q")] none (1/2) (1/2) "balanced" (some "a") false true
          0).perf =
        trackMetrics [] "a" (successResult "a" content lat)
      ∧ (smartCompletion
          [("a", ⟨"a", ModelTier.flash, 1, 10, [TaskType.code], "p"⟩),
           ("b", ⟨"b", ModelTier.flash, 2, 10, [TaskType.code], "p"⟩)]
          (fun m => if m = "a" then ExecOutcome.fail "x" else ExecOutcome.ok "y" 1)
          [] [] 0 [("u", "q")] none (1/2) (1/2) "balanced" (some "a") false true
          0).attempts = ["a"])
    ∧ (∀ e,
      (fun m => if m = "a" then ExecOutcome.fail "x" else ExecOutcome.ok "y" 1) "a" =
        ExecOutcome.fail e →
      (smartCompletion
          [("a", ⟨"a", ModelTier.flash, 1, 10, [TaskType.code], "p"⟩),
           ("b", ⟨"b", ModelTier.flash, 2, 10, [TaskType.code], "p"⟩)]
          (fun m => if m = "a" then ExecOutcome.fail "x" else ExecOutcome.ok "y" 1)
          [] [] 0 [("u", "q")] none (1/2) (1/2) "balanced" (some "a") false false
          0).perf = [])
    ∧ (∀ e,
      (fun m => if m = "a" then ExecOutcome.fail "x" else ExecOutcome.ok "y" 1) "a" =
        ExecOutcome.fail e →
      ((tryFallbacks
          (fun m => if m = "a" then ExecOutcome.fail "x" else ExecOutcome.ok "y" 1)
          [("a", ⟨"a", ModelTier.flash, 1, 10, [TaskType.code], "p"⟩),
           ("b", ⟨"b", ModelTier.flash, 2, 10, [TaskType.code], "p"⟩)]
          e "a" []
          (getFallbackChain
            [("a", ⟨"a", ModelTier.flash, 1, 10, [TaskType.code], "p"⟩),
             ("b", ⟨"b", ModelTier.flash, 2, 10, [TaskType.code], "p"⟩)]
            "a")).1.success = true →
        ∃ mu content lat,
          (tryFallbacks
            (fun m => if m = "a" then ExecOutcome.fail "x" else ExecOutcome.ok "y" 1)
            [("a", ⟨"a", ModelTier.flash, 1, 10, [TaskType.code], "p"⟩),
             ("b", ⟨"b", ModelTier.flash, 2, 10, [TaskType.code], "p"⟩)]
            e "a" []
            (getFallbackChain
              [("a", ⟨"a", ModelTier.flash, 1, 10, [TaskType.code], "p"⟩),
               ("b", ⟨"b", ModelTier.flash, 2, 10, [TaskType.code], "p"⟩)]
              "a")).1 = successResult mu content lat
          ∧ mu ∈ getFallbackChain
              [("a", ⟨"a", ModelTier.flash, 1, 10, [TaskType.code], "p"⟩),
               ("b", ⟨"b", ModelTier.flash, 2, 10, [TaskType.code], "p"⟩)] "a"
          ∧ (smartCompletion
              [("a", ⟨"a", ModelTier.flash, 1, 10, [TaskType.code], "p"⟩),
               ("b", ⟨"b", ModelTier.flash, 2, 10, [TaskType.code], "p"⟩)]
              (fun m => if m = "a" then ExecOutcome.fail "x" else ExecOutcome.ok "y" 1)
              [] [] 0 [("u", "q")] none (1/2) (1/2) "balanced" (some "a") false true
              0).perf = trackMetrics [] mu (successResult mu content lat))
      ∧ ((tryFallbacks
          (fun m => if m = "a" then ExecOutcome.fail "x" else ExecOutcome.ok "y" 1)
          [("a", ⟨"a", ModelTier.flash, 1, 10, [TaskType.code], "p"⟩),
           ("b", ⟨"b", ModelTier.flash, 2, 10, [TaskType.code], "p"⟩)]
          e "a" []
          (getFallbackChain
            [("a", ⟨"a", ModelTier.flash, 1, 10, [TaskType.code], "p"⟩),
             ("b", ⟨"b", ModelTier.flash, 2, 10, [TaskType.code], "p"⟩)]
            "a")).1.success = false →
        (smartCompletion
            [("a", ⟨"a", ModelTier.flash, 1, 10, [TaskType.code], "p"⟩),
             ("b", ⟨"b", ModelTier.flash, 2, 10, [TaskType.code], "p"⟩)]
            (fun m => if m = "a" then ExecOutcome.fail "x" else ExecOutcome.ok "y" 1)
            [] [] 0 [("u", "q")] none (1/2) (1/2) "balanced" (some "a") false true
            0).perf = [])) :=
  C3_metrics_amended
    [("a", ⟨"a", ModelTier.flash, 1, 10, [TaskType.code], "p"⟩),
     ("b", ⟨"b", ModelTier.flash, 2, 10, [TaskType.code], "p"⟩)]
    (fun m => if m = "a" then ExecOutcome.fail "x" else ExecOutcome.ok "y" 1)
    [] [] 0 [("u", "q")] none (1/2) (1/2) "balanced" (some "a") false true 0 "a"
    rfl (by decide) (by decide)

/-- C6: with caching enabled, a request whose cache key has an unexpired
entry returns the stored result annotated as a cache hit (the code's
`from_cache` flag set to true) and performs no transport attempt, no cache
write and no performance-sample update: both state components are returned
unchanged and the attempt log is empty. -/
theorem C6_cache_hit_short_circuit (models : List (String × ModelConfig))
    (oracle : String → ExecOutcome) (perf0 : PerfMap) (cache0 : RespCache)
    (now : ℚ) (messages : List (String × String)) (task_type : Option TaskType)
    (complexity urgency : ℚ) (cost_preference : String)
    (force_model : Option String) (enable_fallback : Bool) (temperature : ℚ)
    (v : CompletionResult)
    (hhit : checkCache cache0 (generateCacheKey messages task_type temperature)
      now = some v) :
    smartCompletion models oracle perf0 cache0 now messages task_type complexity
        urgency cost_preference force_model true enable_fallback temperature =
      ⟨SCResult.ok v, perf0, cache0, []⟩
    ∧ v.from_cache = true := by
  constructor
  · simp only [smartCompletion, if_true, hhit]
  · exact checkCache_from_cache cache0 _ now v hhit

/-- C6 (witness): a concrete cache with a fresh entry short-circuits. -/
theorem C6_witness :
    smartCompletion [] (fun _ => ExecOutcome.fail "down") []
        [(generateCacheKey [("u", "q")] none 0, successResult "m" "c" 1, 0)] 1
        [("u", "q")] none (1/2) (1/2) "balanced" none true true 0 =
      ⟨SCResult.ok { successResult "m" "c" 1 with from_cache := true },
       [], [(generateCacheKey [("u", "q")] none 0, successResult "m" "c" 1, 0)], []⟩
    ∧ ({ successResult "m" "c" 1 with from_cache := true} : CompletionResult).from_cache =
        true :=
  C6_cache_hit_short_circuit [] (fun _ => ExecOutcome.fail "down") []
    [(generateCacheKey [("u", "q")] none 0, successResult "m" "c" 1, 0)] 1
    [("u", "q")] none (1/2) (1/2) "balanced" none true 0
    { successResult "m" "c" 1 with from_cache := true } (by decide)

set_option maxRecDepth 80000 in
/-- C7 (counterexample): caching enabled, empty cache, the forced primary
model fails and the first fallback succeeds: the §4.2 execution (including
fallbacks) produced a successful result, yet the cache is left unchanged —
only the primary-success path writes to the cache. -/
theorem C7_counterexample :
    (smartCompletion portkeyModels
        (fun m => if m = "openai/gpt-4o" then ExecOutcome.fail "boom"
          else ExecOutcome.ok "ok" 1)
        [] [] 0 [("u", "hi")] none (1/2) (1/2) "balanced"
        (some "openai/gpt-4o") true true 0).result =
      SCResult.ok (successResult "anthropic/claude-3-sonnet" "ok" 1) ∧
    (successResult "anthropic/claude-3-sonnet" "ok" 1).success = true ∧
    (smartCompletion portkeyModels
        (fun m => if m = "openai/gpt-4o" then ExecOutcome.fail "boom"
          else ExecOutcome.ok "ok" 1)
        [] [] 0 [("u", "hi")] none (1/2) (1/2) "balanced"
        (some "openai/gpt-4o") true true 0).cache = [] := by
  decide

/-- C7 (amended): with caching enabled, a request that misses the cache
stores its result with a fresh TTL **iff the primary attempt succeeded**;
a successful result obtained through the fallback chain is returned but
not cached, and on failure the cache is unchanged. -/
theorem C7_cache_store_amended (models : List (String × ModelConfig))
    (oracle : String → ExecOutcome) (perf0 : PerfMap) (cache0 : RespCache)
    (now : ℚ) (messages : List (String × String)) (task_type : Option TaskType)
    (complexity urgency : ℚ) (cost_preference : String)
    (force_model : Option String) (temperature : ℚ) (model : String)
    (hmiss : checkCache cache0 (generateCacheKey messages task_type temperature)
      now = none)
    (hsel : chooseModel models perf0 task_type complexity cost_preference
      force_model = some model)
    (hin : (lookupA models model).isSome) :
    (∀ content lat, oracle model = ExecOutcome.ok content lat →
      ∀ enable_fallback,
      (smartCompletion models oracle perf0 cache0 now messages task_type complexity
          urgency cost_preference force_model true enable_fallback
          temperature).cache =
        cacheResponse cache0 (generateCacheKey messages task_type temperature)
          (successResult model content lat) now)
    ∧ (∀ e, oracle model = ExecOutcome.fail e → ∀ enable_fallback : Bool,
      (smartCompletion models oracle perf0 cache0 now messages task_type complexity
          urgency cost_preference force_model true enable_fallback
          temperature).cache = cache0) := by
  have hm : (if true then checkCache cache0
      (generateCacheKey messages task_type temperature) now else none) = none := by
    rw [if_pos rfl, hmiss]
  constructor
  · intro content lat hor enable_fallback
    rw [smartCompletion_primary_ok models oracle perf0 cache0 now messages task_type
      complexity urgency cost_preference force_model true enable_fallback
      temperature model content lat hm hsel hin hor]
    rfl
  · intro e hor enable_fallback
    cases enable_fallback with
    | true =>
      rw [smartCompletion_primary_fail_fb models oracle perf0 cache0 now messages
        task_type complexity urgency cost_preference force_model true
        temperature model e hm hsel hin hor]
    | false =>
      rw [smartCompletion_primary_fail_nofb models oracle perf0 cache0 now messages
        task_type complexity urgency cost_preference force_model true
        temperature model e hm hsel hin hor]

/-- C7 (witness): the amended cache-store property instantiated on a
two-model map with an empty cache. -/
theorem C7_witness :
    (∀ content lat,
      (fun m => if m = "a" then ExecOutcome.ok "y" 1 else ExecOutcome.fail "x") "a" =
        ExecOutcome.ok content lat →
      ∀ enable_fallback,
      (smartCompletion
          [("a", ⟨"a", ModelTier.flash, 1, 10, [TaskType.code], "p"⟩),
           ("b", ⟨"b", ModelTier.flash, 2, 10, [TaskType.code], "p"⟩)]
          (fun m => if m = "a" then ExecOutcome.ok "y" 1 else ExecOutcome.fail "x")
          [] [] 0 [("u", "q")] none (1/2) (1/2) "balanced" (some "a") true
          enable_fallback 0).cache =
        cacheResponse [] (generateCacheKey [("u", "q")] none 0)
          (successResult "a" content lat) 0)
    ∧ (∀ e,
      (fun m => if m = "a" then ExecOutcome.ok "y" 1 else ExecOutcome.fail "x") "a" =
        ExecOutcome.fail e →
      ∀ enable_fallback : Bool,
      (smartCompletion
          [("a", ⟨"a", ModelTier.flash, 1, 10, [TaskType.code], "p"⟩),
           ("b", ⟨"b", ModelTier.flash, 2, 10, [TaskType.code], "p"⟩)]
          (fun m => if m = "a" then ExecOutcome.ok "y" 1 else ExecOutcome.fail "x")
          [] [] 0 [("u", "q")] none (1/2) (1/2) "balanced" (some "a") true
          enable_fallback 0).cache = []) :=
  C7_cache_store_amended
    [("a", ⟨"a", ModelTier.flash, 1, 10, [TaskType.code], "p"⟩),
     ("b", ⟨"b", ModelTier.flash, 2, 10, [TaskType.code], "p"⟩)]
    (fun m => if m = "a" then ExecOutcome.ok "y" 1 else ExecOutcome.fail "x")
    [] [] 0 [("u", "q")] none (1/2) (1/2) "balanced" (some "a") 0 "a"
    rfl (by decide) (by decide)

/-- C8: a cache entry at or beyond the configured TTL is never returned as
a hit: `EmbeddingCache.get` deletes it lazily at read time and reports a
miss, and the caller (`generate_embedding`) then re-executes against the
provider, returning a freshly generated (non-cache-hit) response. -/
theorem C8_ttl_expiry (ttl now ts : ℚ) (cache : EmbCache) (key : String)
    (r : EmbeddingResponse)
    (hstored : lookupA cache key = some (r, ts)) (hexp : ttl ≤ now - ts) :
    (embCacheGet ttl cache key now).1 = none
    ∧ (embCacheGet ttl cache key now).2 = removeA cache key
    ∧ ∀ (provider : List String → EmbModelCfg → EmbeddingResponse)
        (cfg : EmbConfig) (text : String ⊕ List String) (model_id : String)
        (use_case : Option String) (digest : String → String) (mc : EmbModelCfg),
      cfg.cache_embeddings = true → cfg.cache_ttl_hours = ttl →
      requestCacheKey digest text model_id use_case = key →
      getModelConfig cfg model_id = some mc → mc.provider = "openrouter" →
      (generateEmbedding provider cfg cache text model_id use_case digest now).1 =
        some { provider (inputTexts text) mc with
               cache_hit := false, processing_time_ms := 0 } := by
  have hget : embCacheGet ttl cache key now = (none, removeA cache key) := by
    simp only [embCacheGet, hstored]
    rw [if_neg (not_lt.mpr hexp)]
  refine ⟨by rw [hget], by rw [hget], ?_⟩
  intro provider cfg text model_id use_case digest mc hce httl hkey hmc hprov
  simp only [generateEmbedding, hce, if_true, hkey, httl, hget, hmc, hprov]
  simp

/-- C8 (witness): a concrete entry stored at hour 0 and read at hour 24
with a 24-hour TTL misses, is deleted, and the read-through call returns a
fresh provider response. -/
theorem C8_witness :
    (embCacheGet 24 [("k", ⟨[[1]], "m", "openrouter", 2, 4, 0, false, 0⟩, 0)]
      "k" 24).1 = none
    ∧ (embCacheGet 24 [("k", ⟨[[1]], "m", "openrouter", 2, 4, 0, false, 0⟩, 0)]
        "k" 24).2 =
      removeA [("k", ⟨[[1]], "m", "openrouter", 2, 4, 0, false, 0⟩, 0)] "k"
    ∧ (generateEmbedding
        (fun _ _ => ⟨[[2]], "m", "openrouter", 2, 4, 0, false, 0⟩)
        ⟨"m", [("m", ⟨"openrouter", "mm", 2, 1/10⟩)], [], [], true, 24⟩
        [("k", ⟨[[1]], "m", "openrouter", 2, 4, 0, false, 0⟩, 0)]
        (Sum.inl "a") "m" none (fun _ => "k") 24).1 =
      some { (fun (_ : List String) (_ : EmbModelCfg) =>
          (⟨[[2]], "m", "openrouter", 2, 4, 0, false, 0⟩ : EmbeddingResponse))
          (inputTexts (Sum.inl "a")) (⟨"openrouter", "mm", 2, 1/10⟩ : EmbModelCfg) with
        cache_hit := false, processing_time_ms := 0 } :=
  ⟨(C8_ttl_expiry 24 24 0 [("k", ⟨[[1]], "m", "openrouter", 2, 4, 0, false, 0⟩, 0)]
      "k" ⟨[[1]], "m", "openrouter", 2, 4, 0, false, 0⟩ (by decide) (by decide)).1,
   (C8_ttl_expiry 24 24 0 [("k", ⟨[[1]], "m", "openrouter", 2, 4, 0, false, 0⟩, 0)]
      "k" ⟨[[1]], "m", "openrouter", 2, 4, 0, false, 0⟩ (by decide) (by decide)).2.1,
   (C8_ttl_expiry 24 24 0 [("k", ⟨[[1]], "m", "openrouter", 2, 4, 0, false, 0⟩, 0)]
      "k" ⟨[[1]], "m", "openrouter", 2, 4, 0, false, 0⟩ (by decide) (by decide)).2.2
     (fun _ _ => ⟨[[2]], "m", "openrouter", 2, 4, 0, false, 0⟩)
     ⟨"m", [("m", ⟨"openrouter", "mm", 2, 1/10⟩)], [], [], true, 24⟩
     (Sum.inl "a") "m" none (fun _ => "k") ⟨"openrouter", "mm", 2, 1/10⟩
     rfl rfl rfl (by decide) rfl⟩

/-- C10: the auto-generated embedding cache key joins list inputs with
`"|"` before hashing, so the batch request `["a", "b"]` and the single
string request `"a|b"` (same model id and use case) produce the identical
cache key under every digest function; with caching enabled, running the
batch request first and then the single-string request serves the second
from the first one's cached embeddings (`cache_hit = true`, same
embeddings). -/
theorem C10_pipe_join_cache_collision :
    (∀ (digest : String → String) (model_id : String) (use_case : Option String),
      requestCacheKey digest (Sum.inr ["a", "b"]) model_id use_case =
        requestCacheKey digest (Sum.inl "a|b") model_id use_case)
    ∧ ((generateEmbedding
          (fun _ _ => ⟨[[1], [2]], "m", "openrouter", 2, 4, 0, false, 0⟩)
          ⟨"m", [("m", ⟨"openrouter", "mm", 2, 1/10⟩)], [], [], true, 24⟩
          [] (Sum.inr ["a", "b"]) "m" none (fun s => s) 0).1.map
        (fun r => (r.cache_hit, r.embeddings))) = some (false, [[1], [2]])
    ∧ ((generateEmbedding
          (fun _ _ => ⟨[[1], [2]], "m", "openrouter", 2, 4, 0, false, 0⟩)
          ⟨"m", [("m", ⟨"openrouter", "mm", 2, 1/10⟩)], [], [], true, 24⟩
          (generateEmbedding
            (fun _ _ => ⟨[[1], [2]], "m", "openrouter", 2, 4, 0, false, 0⟩)
            ⟨"m", [("m", ⟨"openrouter", "mm", 2, 1/10⟩)], [], [], true, 24⟩
            [] (Sum.inr ["a", "b"]) "m" none (fun s => s) 0).2
          (Sum.inl "a|b") "m" none (fun s => s) 1).1.map
        (fun r => (r.cache_hit, r.embeddings))) = some (true, [[1], [2]]) := by
  have hj : String.intercalate "|" ["a", "b"] = "a|b" := by decide
  refine ⟨?_, by decide, by decide⟩
  intro digest model_id use_case
  simp only [requestCacheKey, cacheInput, hj]
